import Mathlib

set_option maxRecDepth 20000

/-!
Verification development for the shared-memory data publisher of the routing
engine (files `include/storage/shared_datatype.hpp` and `src/storage/storage.cpp`).

Machine integers are modelled as `Nat` with explicit reduction modulo `2 ^ 64`
(for `uint64_t` / pointer arithmetic) and modulo `2 ^ 32` (for the `unsigned`
monitor timestamp) at the operations where the C++ code can wrap.

Shared-memory payloads are modelled as byte maps `Nat → Nat`; the populate pass
is modelled as the list of byte writes it performs, in program order.
-/

namespace OSRM

/-- Word modulus of `uint64_t` and of pointer (`uintptr_t`) arithmetic. -/
def W64 : Nat := 2 ^ 64

/-- Modulus of the C++ `unsigned` type used for the monitor timestamp
(`SharedDataTimestamp.timestamp` in `shared_datatype.hpp`). -/
def MOD32 : Nat := 2 ^ 32

/-- Modelled from the spec: `storage/block.hpp` (struct `Block`) is not among
the provided sources.  Per spec section 3, a block descriptor carries the number
of entries, the byte size, the entry size and the entry alignment. -/
structure Block where
  num_entries : Nat
  byte_size : Nat
  entry_size : Nat
  entry_align : Nat
deriving Repr, DecidableEq

/-- Modelled from the spec: `make_block<T>(n)` (spec section 4.1) produces entry
size `sizeof(T)`, entry alignment `alignof(T)`, count `n`, byte size
`n * sizeof(T)`.  The `sizeof`/`alignof` of the C++ element type are passed
explicitly since most element types are defined outside the provided sources. -/
def make_block (entrySize entryAlign n : Nat) : Block :=
  ⟨n, n * entrySize, entrySize, entryAlign⟩

/-- Block identifiers, `DataLayout::BlockID` (shared_datatype.hpp lines 99-175),
numbered by their position in the enumeration. -/
def NAME_CHAR_DATA : Nat := 0
def EDGE_BASED_NODE_DATA_LIST : Nat := 1
def ANNOTATION_DATA_LIST : Nat := 2
def CH_GRAPH_NODE_LIST : Nat := 3
def CH_GRAPH_EDGE_LIST : Nat := 4
def CH_EDGE_FILTER_0 : Nat := 5
def COORDINATE_LIST : Nat := 13
def OSM_NODE_ID_LIST : Nat := 14
def TURN_INSTRUCTION : Nat := 15
def ENTRY_CLASSID : Nat := 16
def R_SEARCH_TREE : Nat := 17
def R_SEARCH_TREE_LEVELS : Nat := 18
def GEOMETRIES_INDEX : Nat := 19
def GEOMETRIES_NODE_LIST : Nat := 20
def GEOMETRIES_FWD_WEIGHT_LIST : Nat := 21
def GEOMETRIES_REV_WEIGHT_LIST : Nat := 22
def GEOMETRIES_FWD_DURATION_LIST : Nat := 23
def GEOMETRIES_REV_DURATION_LIST : Nat := 24
def GEOMETRIES_FWD_DATASOURCES_LIST : Nat := 25
def GEOMETRIES_REV_DATASOURCES_LIST : Nat := 26
def HSGR_CHECKSUM : Nat := 27
def TIMESTAMP : Nat := 28
def FILE_INDEX_PATH : Nat := 29
def DATASOURCES_NAMES : Nat := 30
def PROPERTIES : Nat := 31
def BEARING_CLASSID : Nat := 32
def BEARING_OFFSETS : Nat := 33
def BEARING_BLOCKS : Nat := 34
def BEARING_VALUES : Nat := 35
def ENTRY_CLASS : Nat := 36
def LANE_DATA_ID : Nat := 37
def PRE_TURN_BEARING : Nat := 38
def POST_TURN_BEARING : Nat := 39
def TURN_LANE_DATA : Nat := 40
def LANE_DESCRIPTION_OFFSETS : Nat := 41
def LANE_DESCRIPTION_MASKS : Nat := 42
def TURN_WEIGHT_PENALTIES : Nat := 43
def TURN_DURATION_PENALTIES : Nat := 44
def MLD_LEVEL_DATA : Nat := 45
def MLD_PARTITION : Nat := 46
def MLD_CELL_TO_CHILDREN : Nat := 47
def MLD_CELL_WEIGHTS_0 : Nat := 48
def MLD_CELL_DURATIONS_0 : Nat := 56
def MLD_CELL_SOURCE_BOUNDARY : Nat := 64
def MLD_CELL_DESTINATION_BOUNDARY : Nat := 65
def MLD_CELLS : Nat := 66
def MLD_CELL_LEVEL_OFFSETS : Nat := 67
def MLD_GRAPH_NODE_LIST : Nat := 68
def MLD_GRAPH_EDGE_LIST : Nat := 69
def MLD_GRAPH_NODE_TO_OFFSET : Nat := 70
def MANEUVER_OVERRIDES : Nat := 71
def MANEUVER_OVERRIDE_NODE_SEQUENCES : Nat := 72
def NUM_BLOCKS : Nat := 73

/-- A `DataLayout` is its array of `NUM_BLOCKS` block descriptors
(shared_datatype.hpp line 177); indices at and above `NUM_BLOCKS` are unused. -/
def Layout : Type := Nat → Block

/-- `DataLayout::DataLayout()` value-initializes every descriptor to zero. -/
def emptyLayout : Layout := fun _ => ⟨0, 0, 0, 0⟩

/-- `DataLayout::SetBlock` (shared_datatype.hpp line 181). -/
def SetBlock (L : Layout) (bid : Nat) (b : Block) : Layout :=
  fun i => if i = bid then b else L i

/-- `sizeof(CANARY)` in the source is 4. -/
def CANARY_SIZE : Nat := 4

/-- The canary constant `CANARY` of shared_datatype.hpp line 21:
`const constexpr char CANARY[4] = ...` with the four characters O, S, R, M. -/
def CANARY : List Char := ['O', 'S', 'R', 'M']

/-- The canary as raw byte values, as they are written into memory. -/
def canaryBytes : List Nat := CANARY.map Char.toNat

/-- Accumulation step of `DataLayout::GetSizeOfLayout` (shared_datatype.hpp
lines 187-196): `result += 2 * sizeof(CANARY) + GetBlockSize(i) + entry_align`,
in `uint64_t` arithmetic. `sizeAux L n` is the value of `result` after the
first `n` loop iterations. -/
def sizeAux (L : Layout) : Nat → Nat
  | 0 => 0
  | n + 1 => (sizeAux L n + (2 * CANARY_SIZE + (L n).byte_size + (L n).entry_align)) % W64

/-- `DataLayout::GetSizeOfLayout` (shared_datatype.hpp lines 187-196). -/
def GetSizeOfLayout (L : Layout) : Nat := sizeAux L NUM_BLOCKS

/-- The same sum without the `uint64_t` wrap, used to state overflow-freedom. -/
def layoutCost (L : Layout) : Nat → Nat
  | 0 => 0
  | n + 1 => layoutCost L n + (2 * CANARY_SIZE + (L n).byte_size + (L n).entry_align)

/-- `DataLayout::align` (shared_datatype.hpp lines 202-207):
`aligned = (intptr - 1u + align) & -align` in `uintptr_t` arithmetic.
`intptr - 1u` wraps modulo `2 ^ 64`, hence the `+ (W64 - 1)`; `-align` as an
unsigned value is `W64 - align`. -/
def alignCpp (align ptr : Nat) : Nat :=
  ((ptr + (W64 - 1) + align) % W64) &&& (W64 - align)

/-- Rounding up to a multiple, the arithmetical reading of the spec phrase
"round up to that block's alignment" (spec section 4.1). -/
def alignUp (align ptr : Nat) : Nat :=
  ((ptr + align - 1) / align) * align

/-- Pointer value after the first `n` iterations of the loop in
`DataLayout::GetAlignedBlockPtr` (shared_datatype.hpp lines 211-217): advance by
`sizeof(CANARY)`, align with `DataLayout::align`, advance by the block size,
advance by `sizeof(CANARY)`; pointer arithmetic wraps modulo `2 ^ 64`. -/
def ptrAfter (L : Layout) (base : Nat) : Nat → Nat
  | 0 => base
  | n + 1 =>
    ((alignCpp (L n).entry_align ((ptrAfter L base n + CANARY_SIZE) % W64)
        + (L n).byte_size) % W64 + CANARY_SIZE) % W64

/-- `DataLayout::GetAlignedBlockPtr` (shared_datatype.hpp lines 209-222): after
the loop over the earlier blocks, advance by `sizeof(CANARY)` once more and
align to the queried block's alignment. -/
def GetAlignedBlockPtr (L : Layout) (base bid : Nat) : Nat :=
  alignCpp (L bid).entry_align ((ptrAfter L base bid + CANARY_SIZE) % W64)

/-- Offset replay as worded by the spec (section 4.1, `aligned_offset_of`):
position after `n` complete blocks, in exact (non-wrapping) arithmetic. -/
def replayAfter (L : Layout) (base : Nat) : Nat → Nat
  | 0 => base
  | n + 1 =>
    alignUp (L n).entry_align (replayAfter L base n + CANARY_SIZE)
      + (L n).byte_size + CANARY_SIZE

/-- Offset replay as worded by the spec (section 4.1): the payload offset of
block `bid` is one more canary advance followed by a round-up to the block's
alignment. -/
def alignedOffsetSpec (L : Layout) (base bid : Nat) : Nat :=
  alignUp (L bid).entry_align (replayAfter L base bid + CANARY_SIZE)

/-- `enum SharedDataType` (shared_datatype.hpp lines 263-268). -/
inductive SharedDataType where
  | REGION_NONE
  | REGION_1
  | REGION_2
deriving Repr, DecidableEq

/-- `struct SharedDataTimestamp` (shared_datatype.hpp lines 270-281); the
`timestamp` field is a C++ `unsigned`, kept here as a `Nat` that the publisher
only ever updates modulo `2 ^ 32`. -/
structure SharedDataTimestamp where
  region : SharedDataType
  timestamp : Nat
deriving Repr, DecidableEq

/-- Environment of one invocation of `Storage::Run` (storage.cpp lines 82-205).
The shared OS objects (`SharedMonitor`, `SharedMemory`) are declared in headers
that are not among the provided sources; following spec sections 4.2 and 4.3,
their observable state at the moments the publisher samples it is provided as
input: the monitor cell after open-or-create, whether the next region still
exists (stale), whether the bounded monitor-mutex acquisition succeeded, and
whether the in-use region exists at cleanup time. -/
structure RunEnv where
  preMonitor : SharedDataTimestamp
  nextRegionExists : Bool
  maxWait : Int
  timedLockSuccess : Bool
  inUseRegionExists : Bool
deriving Repr, DecidableEq

/-- Observable effects of one successful `Storage::Run` invocation. -/
structure RunResult where
  monitor : SharedDataTimestamp
  warnedTimeout : Bool
  recreatedMonitor : Bool
  removedRegions : List SharedDataType
  openedOld : Option SharedDataType
  waitedDetach : Bool
  exitCode : Nat
deriving Repr, DecidableEq

/-- `Storage::Run` (storage.cpp lines 82-205), for an invocation in which
sizing, allocation and populating succeed. Line-by-line: lines 117-121 sample
the monitor and derive `next_region` and `next_timestamp` (the `+ 1` is on the
C++ `unsigned` timestamp, hence modulo `2 ^ 32`); lines 126-133 remove a stale
next region; lines 151-177 take the monitor mutex — on a bounded-wait timeout
(lines 155-168) a warning is logged, the monitor is removed and re-created and
`in_use_region` is set to `REGION_NONE` — and then store
`(next_region, next_timestamp)`; lines 185-200 open, remove and wait for
detachment of the old region if it is a real region that still exists. -/
def Run (e : RunEnv) : RunResult :=
  let in_use_region := e.preMonitor.region
  let next_timestamp := (e.preMonitor.timestamp + 1) % MOD32
  let next_region :=
    if in_use_region = SharedDataType.REGION_2 ∨ in_use_region = SharedDataType.REGION_NONE
    then SharedDataType.REGION_1 else SharedDataType.REGION_2
  let timedOut : Bool := decide (0 ≤ e.maxWait) && !e.timedLockSuccess
  let in_use_region2 := if timedOut then SharedDataType.REGION_NONE else in_use_region
  let cleanupOld : Bool :=
    decide (in_use_region2 ≠ SharedDataType.REGION_NONE) && e.inUseRegionExists
  { monitor := ⟨next_region, next_timestamp⟩
    warnedTimeout := timedOut
    recreatedMonitor := timedOut
    removedRegions :=
      (if e.nextRegionExists then [next_region] else [])
        ++ (if cleanupOld then [in_use_region2] else [])
    openedOld := if cleanupOld then some in_use_region2 else none
    waitedDetach := cleanupOld
    exitCode := 0 }

/-- `NUM_METRICS` (storage.cpp line 71). -/
def NUM_METRICS : Nat := 8

/-- Entry size and alignment (`sizeof`, `alignof`) of each C++ element type
used in `Storage::PopulateLayout` whose definition lies outside the provided
sources; `char` (1,1), `std::uint32_t`/`unsigned` (4,4) and `std::uint64_t`
(8,8) are fixed by the implementation and written literally instead. -/
structure TEnv where
  mask : Nat × Nat
  turnBearing : Nat × Nat
  turnInstr : Nat × Nat
  laneDataID : Nat × Nat
  entryClassID : Nat × Nat
  ebNode : Nat × Nat
  ebAnnot : Nat × Nat
  chNode : Nat × Nat
  chEdge : Nat × Nat
  rtreeNode : Nat × Nat
  profileProps : Nat × Nat
  turnPenalty : Nat × Nat
  coordinate : Nat × Nat
  packedBlock : Nat × Nat
  nodeID : Nat × Nat
  segWeightBlock : Nat × Nat
  segDurBlock : Nat × Nat
  datasourceID : Nat × Nat
  datasources : Nat × Nat
  discreteBearing : Nat × Nat
  bearingClassID : Nat × Nat
  rangeBlock : Nat × Nat
  entryClass : Nat × Nat
  laneTuple : Nat × Nat
  mOverride : Nat × Nat
  levelData : Nat × Nat
  partitionID : Nat × Nat
  cellID : Nat × Nat
  cellData : Nat × Nat
  edgeWeight : Nat × Nat
  edgeDuration : Nat × Nat
  mldNode : Nat × Nat
  mldEdge : Nat × Nat
  mldOffset : Nat × Nat
deriving Repr, DecidableEq

/-- Shorthand: `make_block<T>(n)` with the (size, alignment) pair of `T`. -/
def mb (ti : Nat × Nat) (n : Nat) : Block := make_block ti.1 ti.2 n

/-- Counts declared by the `.osrm.hsgr` file as read in `Storage::PopulateLayout`
(storage.cpp lines 270-275). -/
structure HsgrInput where
  numNodes : Nat
  numEdges : Nat
  numMetrics : Nat
deriving Repr, DecidableEq

/-- Counts declared by the `.osrm.cell_metrics` file (storage.cpp lines
524-544): the declared metric count and, per metric index, the weight and
duration vector sizes. -/
structure CellMetricsInput where
  numMetric : Nat
  weightsCount : Nat → Nat
  durationsCount : Nat → Nat

/-- Counts declared by the `.osrm.partition` file (storage.cpp lines 476-487). -/
structure PartitionInput where
  partitionEntries : Nat
  childrenEntries : Nat
deriving Repr, DecidableEq

/-- Counts declared by the `.osrm.cells` file (storage.cpp lines 499-512). -/
structure CellsInput where
  sourceNodes : Nat
  destNodes : Nat
  cellCount : Nat
  levelOffsets : Nat
deriving Repr, DecidableEq

/-- Counts declared by the `.osrm.mldgr` file (storage.cpp lines 577-584). -/
structure MldgrInput where
  numNodes : Nat
  numEdges : Nat
  numNodeOffsets : Nat
deriving Repr, DecidableEq

/-- Parsed counts of all input files as `Storage::PopulateLayout` reads them;
an absent optional file is `none`. -/
structure SizerInputs where
  fileIndexPathLen : Nat
  namesFileSize : Nat
  tlsNumOffsets : Nat
  tlsNumMasks : Nat
  numOriginalEdges : Nat
  ebgNodesCount : Nat
  ebgAnnotCount : Nat
  hsgr : Option HsgrInput
  ramTreeSize : Nat
  ramTreeLevelsSize : Nat
  timestampFileSize : Nat
  numTurnWeightPenalties : Nat
  numTurnDurationPenalties : Nat
  coordinateCount : Nat
  numIdBlocks : Nat
  geomNumIndices : Nat
  geomNumCompressed : Nat
  geomNumWeightBlocks : Nat
  geomNumDurationBlocks : Nat
  icdNumBearingValues : Nat
  icdNumBearingClasses : Nat
  icdBearingBlocks : Nat
  icdBearingOffsets : Nat
  icdNumEntryClasses : Nat
  tldLaneTupleCount : Nat
  movOverridesCount : Nat
  movNodesCount : Nat
  partition : Option PartitionInput
  cells : Option CellsInput
  cellMetrics : Option CellMetricsInput
  mldgr : Option MldgrInput

/-- The single fatal condition of `Storage::PopulateLayout` on parsed inputs:
more metrics than `NUM_METRICS` declared (storage.cpp lines 277-281, 528-532). -/
inductive SizerError where
  | tooManyMetrics
deriving Repr, DecidableEq

/-- Application of a sequence of `SetBlock` calls, in program order. -/
def applySets (L : Layout) (l : List (Nat × Block)) : Layout :=
  l.foldl (fun acc p => SetBlock acc p.1 p.2) L

/-- `SetBlock` calls of storage.cpp lines 214-266: fileIndex, names, turn lane
descriptions, turn data, edge-based-node data. -/
def preHsgrSets (env : TEnv) (c : SizerInputs) : List (Nat × Block) :=
  [(FILE_INDEX_PATH, make_block 1 1 (c.fileIndexPathLen + 1)),
   (NAME_CHAR_DATA, make_block 1 1 c.namesFileSize),
   (LANE_DESCRIPTION_OFFSETS, make_block 4 4 c.tlsNumOffsets),
   (LANE_DESCRIPTION_MASKS, mb env.mask c.tlsNumMasks),
   (PRE_TURN_BEARING, mb env.turnBearing c.numOriginalEdges),
   (POST_TURN_BEARING, mb env.turnBearing c.numOriginalEdges),
   (TURN_INSTRUCTION, mb env.turnInstr c.numOriginalEdges),
   (LANE_DATA_ID, mb env.laneDataID c.numOriginalEdges),
   (ENTRY_CLASSID, mb env.entryClassID c.numOriginalEdges),
   (EDGE_BASED_NODE_DATA_LIST, mb env.ebNode c.ebgNodesCount),
   (ANNOTATION_DATA_LIST, mb env.ebAnnot c.ebgAnnotCount)]

/-- `SetBlock` calls of the `.osrm.hsgr`-present branch (storage.cpp lines
283-298): checksum, node and edge arrays, then the filter blocks — indices
below `num_metrics` sized from `num_edges`, the rest sized to zero. -/
def chSets (env : TEnv) (h : HsgrInput) : List (Nat × Block) :=
  [(HSGR_CHECKSUM, make_block 4 4 1),
   (CH_GRAPH_NODE_LIST, mb env.chNode h.numNodes),
   (CH_GRAPH_EDGE_LIST, mb env.chEdge h.numEdges)]
    ++ (List.range h.numMetrics).map
        (fun i => (CH_EDGE_FILTER_0 + i, make_block 4 4 h.numEdges))
    ++ (List.range' h.numMetrics (NUM_METRICS - h.numMetrics)).map
        (fun i => (CH_EDGE_FILTER_0 + i, make_block 4 4 0))

/-- `SetBlock` calls of the `.osrm.hsgr`-absent branch (storage.cpp lines
302-311): every CH block zero-sized. -/
def chAbsentSets (env : TEnv) : List (Nat × Block) :=
  [(HSGR_CHECKSUM, make_block 4 4 0),
   (CH_GRAPH_NODE_LIST, mb env.chNode 0),
   (CH_GRAPH_EDGE_LIST, mb env.chEdge 0)]
    ++ (List.range NUM_METRICS).map (fun i => (CH_EDGE_FILTER_0 + i, make_block 4 4 0))

/-- `SetBlock` calls of storage.cpp lines 315-470: r-tree, properties,
timestamp, penalties, coordinates, geometry, datasource names, intersection
data, turn lane data, maneuver overrides. -/
def postHsgrSets (env : TEnv) (c : SizerInputs) : List (Nat × Block) :=
  [(R_SEARCH_TREE, mb env.rtreeNode c.ramTreeSize),
   (R_SEARCH_TREE_LEVELS, make_block 8 8 c.ramTreeLevelsSize),
   (PROPERTIES, mb env.profileProps 1),
   (TIMESTAMP, make_block 1 1 c.timestampFileSize),
   (TURN_WEIGHT_PENALTIES, mb env.turnPenalty c.numTurnWeightPenalties),
   (TURN_DURATION_PENALTIES, mb env.turnPenalty c.numTurnDurationPenalties),
   (COORDINATE_LIST, mb env.coordinate c.coordinateCount),
   (OSM_NODE_ID_LIST, mb env.packedBlock c.numIdBlocks),
   (GEOMETRIES_INDEX, make_block 4 4 c.geomNumIndices),
   (GEOMETRIES_NODE_LIST, mb env.nodeID c.geomNumCompressed),
   (GEOMETRIES_FWD_WEIGHT_LIST, mb env.segWeightBlock c.geomNumWeightBlocks),
   (GEOMETRIES_REV_WEIGHT_LIST, mb env.segWeightBlock c.geomNumWeightBlocks),
   (GEOMETRIES_FWD_DURATION_LIST, mb env.segDurBlock c.geomNumDurationBlocks),
   (GEOMETRIES_REV_DURATION_LIST, mb env.segDurBlock c.geomNumDurationBlocks),
   (GEOMETRIES_FWD_DATASOURCES_LIST, mb env.datasourceID c.geomNumCompressed),
   (GEOMETRIES_REV_DATASOURCES_LIST, mb env.datasourceID c.geomNumCompressed),
   (DATASOURCES_NAMES, mb env.datasources 1),
   (BEARING_VALUES, mb env.discreteBearing c.icdNumBearingValues),
   (BEARING_CLASSID, mb env.bearingClassID c.icdNumBearingClasses),
   (BEARING_OFFSETS, make_block 4 4 c.icdBearingBlocks),
   (BEARING_BLOCKS, mb env.rangeBlock c.icdBearingOffsets),
   (ENTRY_CLASS, mb env.entryClass c.icdNumEntryClasses),
   (TURN_LANE_DATA, mb env.laneTuple c.tldLaneTupleCount),
   (MANEUVER_OVERRIDES, mb env.mOverride c.movOverridesCount),
   (MANEUVER_OVERRIDE_NODE_SEQUENCES, mb env.nodeID c.movNodesCount)]

/-- `SetBlock` calls for `.osrm.partition` (storage.cpp lines 474-495). -/
def partSets (env : TEnv) (c : SizerInputs) : List (Nat × Block) :=
  match c.partition with
  | some p =>
    [(MLD_LEVEL_DATA, mb env.levelData 1),
     (MLD_PARTITION, mb env.partitionID p.partitionEntries),
     (MLD_CELL_TO_CHILDREN, mb env.cellID p.childrenEntries)]
  | none =>
    [(MLD_LEVEL_DATA, mb env.levelData 0),
     (MLD_PARTITION, mb env.partitionID 0),
     (MLD_CELL_TO_CHILDREN, mb env.cellID 0)]

/-- `SetBlock` calls for `.osrm.cells` (storage.cpp lines 497-520); the absent
branch uses `make_block<char>(0)`. -/
def cellsSets (env : TEnv) (c : SizerInputs) : List (Nat × Block) :=
  match c.cells with
  | some s =>
    [(MLD_CELL_SOURCE_BOUNDARY, mb env.nodeID s.sourceNodes),
     (MLD_CELL_DESTINATION_BOUNDARY, mb env.nodeID s.destNodes),
     (MLD_CELLS, mb env.cellData s.cellCount),
     (MLD_CELL_LEVEL_OFFSETS, make_block 8 8 s.levelOffsets)]
  | none =>
    [(MLD_CELL_SOURCE_BOUNDARY, make_block 1 1 0),
     (MLD_CELL_DESTINATION_BOUNDARY, make_block 1 1 0),
     (MLD_CELLS, make_block 1 1 0),
     (MLD_CELL_LEVEL_OFFSETS, make_block 1 1 0)]

/-- `SetBlock` calls of the `.osrm.cell_metrics`-present branch (storage.cpp
lines 534-553). -/
def cellMetricsSets (env : TEnv) (m : CellMetricsInput) : List (Nat × Block) :=
  (List.range m.numMetric).flatMap
      (fun i => [(MLD_CELL_WEIGHTS_0 + i, mb env.edgeWeight (m.weightsCount i)),
                 (MLD_CELL_DURATIONS_0 + i, mb env.edgeDuration (m.durationsCount i))])
    ++ (List.range' m.numMetric (NUM_METRICS - m.numMetric)).flatMap
      (fun i => [(MLD_CELL_WEIGHTS_0 + i, mb env.edgeWeight 0),
                 (MLD_CELL_DURATIONS_0 + i, mb env.edgeDuration 0)])

/-- `SetBlock` calls of the `.osrm.cell_metrics`-absent branch (storage.cpp
lines 557-572), sixteen `make_block<char>(0)` calls. -/
def cellMetricsAbsentSets : List (Nat × Block) :=
  (List.range NUM_METRICS).map (fun i => (MLD_CELL_WEIGHTS_0 + i, make_block 1 1 0))
    ++ (List.range NUM_METRICS).map (fun i => (MLD_CELL_DURATIONS_0 + i, make_block 1 1 0))

/-- `SetBlock` calls for `.osrm.mldgr` (storage.cpp lines 575-604). -/
def mldgrSets (env : TEnv) (c : SizerInputs) : List (Nat × Block) :=
  match c.mldgr with
  | some g =>
    [(MLD_GRAPH_NODE_LIST, mb env.mldNode g.numNodes),
     (MLD_GRAPH_EDGE_LIST, mb env.mldEdge g.numEdges),
     (MLD_GRAPH_NODE_TO_OFFSET, mb env.mldOffset g.numNodeOffsets)]
  | none =>
    [(MLD_GRAPH_NODE_LIST, mb env.mldNode 0),
     (MLD_GRAPH_EDGE_LIST, mb env.mldEdge 0),
     (MLD_GRAPH_NODE_TO_OFFSET, mb env.mldOffset 0)]

/-- `Storage::PopulateLayout` (storage.cpp lines 212-606) on parsed inputs:
fails with the too-many-metrics exception when `.osrm.hsgr` (lines 277-281) or
`.osrm.cell_metrics` (lines 528-532) declares more than `NUM_METRICS` metrics,
the hsgr check being reached first; otherwise applies every `SetBlock` call in
program order to the zero-initialized layout. -/
def populateLayout (env : TEnv) (c : SizerInputs) : Except SizerError Layout := do
  let ch ← match c.hsgr with
    | some h =>
      if NUM_METRICS < h.numMetrics then Except.error SizerError.tooManyMetrics
      else Except.ok (chSets env h)
    | none => Except.ok (chAbsentSets env)
  let cm ← match c.cellMetrics with
    | some m =>
      if NUM_METRICS < m.numMetric then Except.error SizerError.tooManyMetrics
      else Except.ok (cellMetricsSets env m)
    | none => Except.ok cellMetricsAbsentSets
  Except.ok (applySets emptyLayout
    (preHsgrSets env c ++ ch ++ postHsgrSets env c ++ partSets env c
      ++ cellsSets env c ++ cm ++ mldgrSets env c))

/-- The CH `SetBlock` calls chosen by the existence of `.osrm.hsgr`
(storage.cpp lines 268-312), for a metric count within bounds. -/
def chOf (env : TEnv) (c : SizerInputs) : List (Nat × Block) :=
  match c.hsgr with
  | some h => chSets env h
  | none => chAbsentSets env

/-- The cell-metric `SetBlock` calls chosen by the existence of
`.osrm.cell_metrics` (storage.cpp lines 522-573). -/
def cmOf (env : TEnv) (c : SizerInputs) : List (Nat × Block) :=
  match c.cellMetrics with
  | some m => cellMetricsSets env m
  | none => cellMetricsAbsentSets

/-- Every `SetBlock` call of a successful `Storage::PopulateLayout`, in program
order. -/
def fullSets (env : TEnv) (c : SizerInputs) : List (Nat × Block) :=
  preHsgrSets env c ++ chOf env c ++ postHsgrSets env c ++ partSets env c
    ++ cellsSets env c ++ cmOf env c ++ mldgrSets env c

/-- Byte-addressed view of the payload area of the shared region. -/
def Mem : Type := Nat → Nat

/-- Freshly created shared memory, all bytes zero. -/
def zeroMem : Mem := fun _ => 0

/-- One contiguous byte write: start address and bytes written. -/
def Op : Type := Nat × List Nat

/-- Writing a byte list at consecutive addresses. -/
def writeBytes : Mem → Nat → List Nat → Mem
  | m, _, [] => m
  | m, a, v :: vs => writeBytes (fun x => if x = a then v else m x) (a + 1) vs

/-- Executing a list of writes in order. -/
def exec (m : Mem) (t : List Op) : Mem :=
  t.foldl (fun acc w => writeBytes acc w.1 w.2) m

/-- Inputs of `Storage::PopulateData` (storage.cpp lines 608-1135): which
optional files exist, the turns connectivity checksum delivered by
`readTurnData` from `.osrm.edges`, the graph connectivity checksums delivered
by `readGraph` from `.osrm.hsgr` and `.osrm.mldgr`, and the payload bytes each
block receives from its file. -/
structure PopInputs where
  hsgrExists : Bool
  partitionExists : Bool
  cellsExists : Bool
  cellMetricsExists : Bool
  mldgrExists : Bool
  turnsChecksum : Nat
  hsgrChecksum : Nat
  mldgrChecksum : Nat
  data : Nat → List Nat

/-- The fatal condition of `Storage::PopulateData` on parsed inputs: a
connectivity checksum mismatch (storage.cpp lines 963-970 and 1106-1113). -/
inductive PopError where
  | checksumMismatch (graphChecksum turnsChecksum : Nat)
deriving Repr, DecidableEq

/-- The canary writes `GetBlockPtr<T, true>` performs for one block
(shared_datatype.hpp lines 234-240): the tag at `ptr - sizeof(CANARY)` and at
`ptr + GetBlockSize(bid)`. -/
def stampOps (L : Layout) (base b : Nat) : List Op :=
  [(GetAlignedBlockPtr L base b - CANARY_SIZE, canaryBytes),
   (GetAlignedBlockPtr L base b + (L b).byte_size, canaryBytes)]

/-- The payload writes the populate pass performs into one block:
`FILE_INDEX_PATH` is first zero-filled over its whole size and then receives
the path bytes (storage.cpp lines 619-631); the three CH blocks receive no
payload when `.osrm.hsgr` is absent — lines 974-978 only stamp their canaries;
every other processed block receives its file bytes. -/
def blockPayloadOps (L : Layout) (base : Nat) (inp : PopInputs) (b : Nat) : List Op :=
  if b = FILE_INDEX_PATH then
    [(GetAlignedBlockPtr L base b, List.replicate (L b).byte_size 0),
     (GetAlignedBlockPtr L base b, inp.data b)]
  else if (b = HSGR_CHECKSUM ∨ b = CH_GRAPH_NODE_LIST ∨ b = CH_GRAPH_EDGE_LIST)
      ∧ inp.hsgrExists = false then
    []
  else
    [(GetAlignedBlockPtr L base b, inp.data b)]

/-- All writes the populate pass performs for one block: both canary stamps,
then the payload writes. -/
def blockOps (L : Layout) (base : Nat) (inp : PopInputs) (b : Nat) : List Op :=
  stampOps L base b ++ blockPayloadOps L base inp b

/-- The blocks processed unconditionally by `Storage::PopulateData`, in program
order (storage.cpp lines 617-927): fileIndex path, names, turn lane data, lane
descriptions, edge-based nodes, original edge data, geometry, datasource names,
coordinates, penalties, timestamp, r-tree, properties, intersection data. -/
def mandatoryIds : List Nat :=
  [FILE_INDEX_PATH, NAME_CHAR_DATA, TURN_LANE_DATA,
   LANE_DESCRIPTION_OFFSETS, LANE_DESCRIPTION_MASKS,
   EDGE_BASED_NODE_DATA_LIST, ANNOTATION_DATA_LIST,
   LANE_DATA_ID, TURN_INSTRUCTION, ENTRY_CLASSID, PRE_TURN_BEARING, POST_TURN_BEARING,
   GEOMETRIES_INDEX, GEOMETRIES_NODE_LIST,
   GEOMETRIES_FWD_WEIGHT_LIST, GEOMETRIES_REV_WEIGHT_LIST,
   GEOMETRIES_FWD_DURATION_LIST, GEOMETRIES_REV_DURATION_LIST,
   GEOMETRIES_FWD_DATASOURCES_LIST, GEOMETRIES_REV_DATASOURCES_LIST,
   DATASOURCES_NAMES, COORDINATE_LIST, OSM_NODE_ID_LIST,
   TURN_WEIGHT_PENALTIES, TURN_DURATION_PENALTIES, TIMESTAMP,
   R_SEARCH_TREE, R_SEARCH_TREE_LEVELS, PROPERTIES,
   BEARING_CLASSID, BEARING_VALUES, BEARING_OFFSETS, BEARING_BLOCKS, ENTRY_CLASS]

/-- All blocks on which `Storage::PopulateData` calls `GetBlockPtr<T, true>`,
in program order.  When `.osrm.hsgr` exists the CH section stamps the node,
edge and checksum blocks and all eight filter blocks (lines 929-962); when it
is absent only the checksum, node and edge blocks are stamped (lines 972-979).
The blocks of an absent `.osrm.partition`, `.osrm.cells`, `.osrm.cell_metrics`
or `.osrm.mldgr` file are not touched at all (lines 982-1114); maneuver
overrides close the pass (lines 1117-1133). -/
def stampedBlocks (inp : PopInputs) : List Nat :=
  mandatoryIds
    ++ (if inp.hsgrExists then
          [CH_GRAPH_NODE_LIST, CH_GRAPH_EDGE_LIST, HSGR_CHECKSUM]
            ++ (List.range NUM_METRICS).map (fun i => CH_EDGE_FILTER_0 + i)
        else [HSGR_CHECKSUM, CH_GRAPH_NODE_LIST, CH_GRAPH_EDGE_LIST])
    ++ (if inp.partitionExists then [MLD_LEVEL_DATA, MLD_PARTITION, MLD_CELL_TO_CHILDREN] else [])
    ++ (if inp.cellsExists then
          [MLD_CELL_SOURCE_BOUNDARY, MLD_CELL_DESTINATION_BOUNDARY,
           MLD_CELLS, MLD_CELL_LEVEL_OFFSETS]
        else [])
    ++ (if inp.cellMetricsExists then
          (List.range NUM_METRICS).flatMap
            (fun i => [MLD_CELL_WEIGHTS_0 + i, MLD_CELL_DURATIONS_0 + i])
        else [])
    ++ (if inp.mldgrExists then
          [MLD_GRAPH_NODE_LIST, MLD_GRAPH_EDGE_LIST, MLD_GRAPH_NODE_TO_OFFSET]
        else [])
    ++ [MANEUVER_OVERRIDES, MANEUVER_OVERRIDE_NODE_SEQUENCES]

/-- Every write `Storage::PopulateData` performs, in per-block program order. -/
def populateTrace (L : Layout) (base : Nat) (inp : PopInputs) : List Op :=
  (stampedBlocks inp).flatMap (blockOps L base inp)

/-- `Storage::PopulateData` (storage.cpp lines 608-1135) on parsed inputs: the
turns connectivity checksum collected at line 732 is compared against the CH
graph checksum when `.osrm.hsgr` exists (lines 963-970) and against the MLD
graph checksum when `.osrm.mldgr` exists (lines 1106-1113); a mismatch is
fatal.  Otherwise the pass performs its writes and succeeds. -/
def populateData (L : Layout) (base : Nat) (inp : PopInputs) : Except PopError (List Op) :=
  if inp.hsgrExists = true ∧ inp.turnsChecksum ≠ inp.hsgrChecksum then
    Except.error (PopError.checksumMismatch inp.hsgrChecksum inp.turnsChecksum)
  else if inp.mldgrExists = true ∧ inp.turnsChecksum ≠ inp.mldgrChecksum then
    Except.error (PopError.checksumMismatch inp.mldgrChecksum inp.turnsChecksum)
  else
    Except.ok (populateTrace L base inp)

/-- Placeholder type environment for concrete evaluations: every opaque C++
element type gets size 1 and alignment 1. -/
def trivEnv : TEnv :=
  ⟨(1, 1), (1, 1), (1, 1), (1, 1), (1, 1), (1, 1), (1, 1), (1, 1), (1, 1), (1, 1),
   (1, 1), (1, 1), (1, 1), (1, 1), (1, 1), (1, 1), (1, 1), (1, 1), (1, 1), (1, 1),
   (1, 1), (1, 1), (1, 1), (1, 1), (1, 1), (1, 1), (1, 1), (1, 1), (1, 1), (1, 1),
   (1, 1), (1, 1), (1, 1), (1, 1)⟩

/-- Minimal input set: every count zero, every optional file absent. -/
def cfg0 : SizerInputs :=
  { fileIndexPathLen := 0, namesFileSize := 0, tlsNumOffsets := 0, tlsNumMasks := 0,
    numOriginalEdges := 0, ebgNodesCount := 0, ebgAnnotCount := 0, hsgr := none,
    ramTreeSize := 0, ramTreeLevelsSize := 0, timestampFileSize := 0,
    numTurnWeightPenalties := 0, numTurnDurationPenalties := 0,
    coordinateCount := 0, numIdBlocks := 0, geomNumIndices := 0, geomNumCompressed := 0,
    geomNumWeightBlocks := 0, geomNumDurationBlocks := 0, icdNumBearingValues := 0,
    icdNumBearingClasses := 0, icdBearingBlocks := 0, icdBearingOffsets := 0,
    icdNumEntryClasses := 0, tldLaneTupleCount := 0, movOverridesCount := 0,
    movNodesCount := 0, partition := none, cells := none, cellMetrics := none,
    mldgr := none }

/-- A CH graph file declaring nine metrics, one more than `NUM_METRICS`. -/
def hsgr9 : HsgrInput := ⟨2, 3, 9⟩

/-- A CH graph file declaring exactly `NUM_METRICS` metrics. -/
def hsgr8 : HsgrInput := ⟨2, 3, 8⟩

/-- The minimal input set together with the nine-metric CH file. -/
def cfgTooMany : SizerInputs := { cfg0 with hsgr := some hsgr9 }

/-- The minimal input set together with the eight-metric CH file. -/
def cfg8 : SizerInputs := { cfg0 with hsgr := some hsgr8 }

/-- The layout the sizer produces from `cfg8`. -/
def L8 : Layout :=
  match populateLayout trivEnv cfg8 with
  | Except.ok L => L
  | Except.error _ => emptyLayout

/-- The layout the sizer produces from the minimal input set. -/
def L0 : Layout :=
  match populateLayout trivEnv cfg0 with
  | Except.ok L => L
  | Except.error _ => emptyLayout

/-- A constant layout with power-of-two alignment, for witnesses. -/
def L1 : Layout := fun _ => ⟨3, 6, 2, 2⟩

/-- Populate-pass inputs matching the minimal input set: every optional file
absent, all checksums zero, no payload bytes. -/
def inp0 : PopInputs :=
  { hsgrExists := false, partitionExists := false, cellsExists := false,
    cellMetricsExists := false, mldgrExists := false,
    turnsChecksum := 0, hsgrChecksum := 0, mldgrChecksum := 0, data := fun _ => [] }

/-- Populate-pass inputs with `.osrm.hsgr` present and a checksum mismatch. -/
def inpMismatch : PopInputs :=
  { inp0 with hsgrExists := true, turnsChecksum := 2730, hsgrChecksum := 3003 }

/-- Address of the start canary of `CH_EDGE_FILTER_0` in the region populated
from the minimal input set (base 0). -/
def cexAddr : Nat := GetAlignedBlockPtr L0 0 CH_EDGE_FILTER_0 - CANARY_SIZE

/-- Byte found at `cexAddr` after the populate pass over the minimal input set,
starting from all-zero memory. -/
def cexByte : Option Nat :=
  match populateData L0 0 inp0 with
  | Except.ok t => some (exec zeroMem t cexAddr)
  | Except.error _ => none

/-- Publisher environment: live region 1 at timestamp 5, bounded wait of two
seconds, the monitor mutex acquisition times out. -/
def envTimeout : RunEnv := ⟨⟨SharedDataType.REGION_1, 5⟩, false, 2, false, true⟩

/-- Publisher environment: monitor at the maximal 32-bit timestamp, unbounded
mutex wait that succeeds. -/
def envWrap : RunEnv := ⟨⟨SharedDataType.REGION_NONE, MOD32 - 1⟩, false, -1, true, false⟩

/-- Publisher environment: live region 1 at timestamp 5, unbounded mutex wait
that succeeds, old region still present. -/
def envPlain : RunEnv := ⟨⟨SharedDataType.REGION_1, 5⟩, false, -1, true, true⟩

/-- Publisher environment: live region 1 at timestamp 5, bounded wait of three
seconds that succeeds, old region still present. -/
def envOk : RunEnv := ⟨⟨SharedDataType.REGION_1, 5⟩, false, 3, true, true⟩

/-! ## Arithmetic facts about rounding up and about the bit trick in
`DataLayout::align` -/

theorem alignUp_le_pred (a p : Nat) : alignUp a p ≤ p + a - 1 :=
  Nat.div_mul_le_self _ _

theorem alignUp_lt (a p : Nat) (ha : 0 < a) : alignUp a p < p + a := by
  have h := alignUp_le_pred a p
  omega

theorem le_alignUp (a p : Nat) (ha : 0 < a) : p ≤ alignUp a p := by
  unfold alignUp
  cases p with
  | zero => exact Nat.zero_le _
  | succ s =>
    have hrw : s + 1 + a - 1 = s + a := by omega
    rw [hrw, Nat.add_div_right _ ha, Nat.add_mul, Nat.one_mul]
    have h := Nat.div_add_mod s a
    have hm : s % a < a := Nat.mod_lt _ ha
    have h2 : s / a * a = a * (s / a) := Nat.mul_comm _ _
    omega

theorem dvd_alignUp (a p : Nat) : a ∣ alignUp a p :=
  Nat.dvd_mul_left a _

theorem land_high (x k : Nat) (hk : k ≤ 64) (hx : x < W64) :
    x &&& (W64 - 2 ^ k) = x / 2 ^ k * 2 ^ k := by
  have hpow : 2 ^ (64 - k) * 2 ^ k = 2 ^ 64 := by
    rw [← Nat.pow_add]
    congr 1
    omega
  have hrw : W64 - 2 ^ k = (2 ^ (64 - k) - 1) <<< k := by
    rw [Nat.shiftLeft_eq, Nat.sub_mul, Nat.one_mul, hpow]
    rfl
  have hdiv : x / 2 ^ k * 2 ^ k = (x >>> k) <<< k := by
    rw [Nat.shiftRight_eq_div_pow, Nat.shiftLeft_eq]
  rw [hrw, hdiv]
  apply Nat.eq_of_testBit_eq
  intro i
  rw [Nat.testBit_and, Nat.testBit_shiftLeft, Nat.testBit_shiftLeft,
    Nat.testBit_shiftRight, Nat.testBit_two_pow_sub_one]
  by_cases hki : k ≤ i
  · by_cases h64 : i < 64
    · have h1 : i - k < 64 - k := by omega
      have h2 : k + (i - k) = i := by omega
      simp [hki, h1, h2]
    · have hxi : x.testBit i = false := by
        apply Nat.testBit_lt_two_pow
        calc x < W64 := hx
        _ ≤ 2 ^ i := Nat.pow_le_pow_right (by omega) (by omega)
      have h1 : ¬ i - k < 64 - k := by omega
      have h2 : k + (i - k) = i := by omega
      simp [hki, h1, h2, hxi]
  · simp [hki]

theorem alignCpp_eq_alignUp (a p k : Nat) (hk : a = 2 ^ k) (hp : 1 ≤ p)
    (hpa : p + a ≤ W64) : alignCpp a p = alignUp a p := by
  have ha : 0 < a := by
    rw [hk]
    exact Nat.pos_pow_of_pos _ (by omega)
  have haW : a < W64 := by omega
  have hk64 : k ≤ 64 := by
    by_contra hcon
    have : 2 ^ 64 < 2 ^ k := Nat.pow_lt_pow_right (by omega) (by omega)
    have hWa : W64 < a := by rw [hk]; exact this
    omega
  unfold alignCpp
  have h1 : p + (W64 - 1) + a = (p + a - 1) + W64 := by omega
  have h2 : p + a - 1 < W64 := by omega
  rw [h1, Nat.add_mod_right, Nat.mod_eq_of_lt h2, hk, land_high _ k hk64 (hk ▸ h2)]
  rfl

/-! ## The offset replay: bounds, monotonicity and equality with the source
pointer computation -/

theorem layoutCost_succ (L : Layout) (n : Nat) :
    layoutCost L (n + 1)
      = layoutCost L n + (2 * CANARY_SIZE + (L n).byte_size + (L n).entry_align) :=
  rfl

theorem layoutCost_mono (L : Layout) (n m : Nat) (h : n ≤ m) :
    layoutCost L n ≤ layoutCost L m := by
  induction m with
  | zero =>
    have hn : n = 0 := by omega
    rw [hn]
  | succ m ih =>
    rcases Nat.lt_or_ge n (m + 1) with hlt | hge
    · have h1 := ih (by omega)
      rw [layoutCost_succ]
      omega
    · have hn : n = m + 1 := by omega
      rw [hn]

theorem replayAfter_le_cost (L : Layout) (base n : Nat)
    (Hpos : ∀ i, i < n → 0 < (L i).entry_align) :
    replayAfter L base n ≤ base + layoutCost L n := by
  induction n with
  | zero => simp [replayAfter, layoutCost]
  | succ n ih =>
    have ih2 := ih (fun i hi => Hpos i (by omega))
    have h1 := alignUp_le_pred (L n).entry_align (replayAfter L base n + CANARY_SIZE)
    have hpos := Hpos n (by omega)
    show alignUp (L n).entry_align (replayAfter L base n + CANARY_SIZE)
        + (L n).byte_size + CANARY_SIZE ≤ base + layoutCost L (n + 1)
    rw [layoutCost_succ]
    unfold CANARY_SIZE at h1 ⊢
    omega

theorem replayAfter_succ_eq (L : Layout) (base n : Nat) :
    replayAfter L base (n + 1)
      = alignedOffsetSpec L base n + (L n).byte_size + CANARY_SIZE :=
  rfl

theorem le_alignedOffsetSpec (L : Layout) (base n : Nat)
    (hpos : 0 < (L n).entry_align) :
    replayAfter L base n + CANARY_SIZE ≤ alignedOffsetSpec L base n :=
  le_alignUp _ _ hpos

theorem replayAfter_step_ge (L : Layout) (base n : Nat)
    (hpos : 0 < (L n).entry_align) :
    replayAfter L base n + 2 * CANARY_SIZE + (L n).byte_size
      ≤ replayAfter L base (n + 1) := by
  have h := le_alignedOffsetSpec L base n hpos
  rw [replayAfter_succ_eq]
  omega

theorem replayAfter_mono (L : Layout) (base n m : Nat) (h : n ≤ m)
    (Hpos : ∀ i, i < m → 0 < (L i).entry_align) :
    replayAfter L base n ≤ replayAfter L base m := by
  induction m with
  | zero =>
    have hn : n = 0 := by omega
    rw [hn]
  | succ m ih =>
    rcases Nat.lt_or_ge n (m + 1) with hlt | hge
    · have h1 := ih (by omega) (fun i hi => Hpos i (by omega))
      have h2 := replayAfter_step_ge L base m (Hpos m (by omega))
      omega
    · have hn : n = m + 1 := by omega
      rw [hn]

theorem base_le_replayAfter (L : Layout) (base n : Nat)
    (Hpos : ∀ i, i < n → 0 < (L i).entry_align) :
    base ≤ replayAfter L base n :=
  replayAfter_mono L base 0 n (by omega) Hpos

theorem ptrAfter_eq_replayAfter (L : Layout) (base n : Nat)
    (Hpow : ∀ i, i < n → ∃ k, (L i).entry_align = 2 ^ k)
    (Hb : base + layoutCost L n ≤ W64) :
    ptrAfter L base n = replayAfter L base n := by
  have Hpos : ∀ i, i < n → 0 < (L i).entry_align := by
    intro i hi
    obtain ⟨k, hk⟩ := Hpow i hi
    rw [hk]
    exact Nat.pos_pow_of_pos _ (by omega)
  induction n with
  | zero => rfl
  | succ n ih =>
    have hcost := layoutCost_succ L n
    have hcs : 2 * CANARY_SIZE + (L n).byte_size + (L n).entry_align
        = 8 + (L n).byte_size + (L n).entry_align := by
      unfold CANARY_SIZE
      omega
    have ih2 := ih (fun i hi => Hpow i (by omega)) (by omega)
        (fun i hi => Hpos i (by omega))
    obtain ⟨k, hk⟩ := Hpow n (by omega)
    have hpos := Hpos n (by omega)
    have hr := replayAfter_le_cost L base n (fun i hi => Hpos i (by omega))
    show ((alignCpp (L n).entry_align ((ptrAfter L base n + CANARY_SIZE) % W64)
        + (L n).byte_size) % W64 + CANARY_SIZE) % W64
        = alignUp (L n).entry_align (replayAfter L base n + CANARY_SIZE)
          + (L n).byte_size + CANARY_SIZE
    rw [ih2]
    have h1 : (replayAfter L base n + CANARY_SIZE) % W64
        = replayAfter L base n + CANARY_SIZE := by
      apply Nat.mod_eq_of_lt
      unfold CANARY_SIZE
      omega
    rw [h1]
    have h2 : alignCpp (L n).entry_align (replayAfter L base n + CANARY_SIZE)
        = alignUp (L n).entry_align (replayAfter L base n + CANARY_SIZE) := by
      apply alignCpp_eq_alignUp _ _ k hk
      · unfold CANARY_SIZE
        omega
      · unfold CANARY_SIZE
        omega
    rw [h2]
    have h3 := alignUp_le_pred (L n).entry_align (replayAfter L base n + CANARY_SIZE)
    have h4 : (alignUp (L n).entry_align (replayAfter L base n + CANARY_SIZE)
        + (L n).byte_size) % W64
        = alignUp (L n).entry_align (replayAfter L base n + CANARY_SIZE)
          + (L n).byte_size := by
      apply Nat.mod_eq_of_lt
      unfold CANARY_SIZE at h3 ⊢
      omega
    rw [h4]
    apply Nat.mod_eq_of_lt
    unfold CANARY_SIZE at h3 ⊢
    omega

theorem GetAlignedBlockPtr_eq_spec (L : Layout) (base bid : Nat)
    (Hpow : ∀ i, i < bid + 1 → ∃ k, (L i).entry_align = 2 ^ k)
    (Hb : base + layoutCost L (bid + 1) ≤ W64) :
    GetAlignedBlockPtr L base bid = alignedOffsetSpec L base bid := by
  have Hpos : ∀ i, i < bid + 1 → 0 < (L i).entry_align := by
    intro i hi
    obtain ⟨k, hk⟩ := Hpow i hi
    rw [hk]
    exact Nat.pos_pow_of_pos _ (by omega)
  have hcost := layoutCost_succ L bid
  have hcs : 2 * CANARY_SIZE + (L bid).byte_size + (L bid).entry_align
      = 8 + (L bid).byte_size + (L bid).entry_align := by
    unfold CANARY_SIZE
    omega
  have heq := ptrAfter_eq_replayAfter L base bid (fun i hi => Hpow i (by omega))
    (by omega)
  have hr := replayAfter_le_cost L base bid (fun i hi => Hpos i (by omega))
  obtain ⟨k, hk⟩ := Hpow bid (by omega)
  unfold GetAlignedBlockPtr alignedOffsetSpec
  rw [heq]
  have h1 : (replayAfter L base bid + CANARY_SIZE) % W64
      = replayAfter L base bid + CANARY_SIZE := by
    apply Nat.mod_eq_of_lt
    unfold CANARY_SIZE
    omega
  rw [h1]
  apply alignCpp_eq_alignUp _ _ k hk
  · unfold CANARY_SIZE
    omega
  · unfold CANARY_SIZE
    omega

theorem sizeAux_eq_cost (L : Layout) (n : Nat) (h : layoutCost L n < W64) :
    sizeAux L n = layoutCost L n := by
  induction n with
  | zero => rfl
  | succ n ih =>
    have hstep : layoutCost L (n + 1)
        = layoutCost L n + (2 * CANARY_SIZE + (L n).byte_size + (L n).entry_align) := rfl
    have ih2 := ih (by omega)
    show (sizeAux L n + (2 * CANARY_SIZE + (L n).byte_size + (L n).entry_align)) % W64
        = layoutCost L (n + 1)
    rw [ih2, ← hstep]
    exact Nat.mod_eq_of_lt (by omega)

theorem pow_align_pos (L : Layout) (n : Nat)
    (Hpow : ∀ i, i < n → ∃ k, (L i).entry_align = 2 ^ k) :
    ∀ i, i < n → 0 < (L i).entry_align := by
  intro i hi
  obtain ⟨k, hk⟩ := Hpow i hi
  rw [hk]
  exact Nat.pos_pow_of_pos _ (by omega)

/-! ## Claim theorems about the layout arithmetic -/

/-- C4 (counterexample): the canary constant of shared_datatype.hpp line 21 is
not the character sequence O, R, S, M claimed by the spec. -/
theorem canary_not_ORSM : CANARY ≠ ['O', 'R', 'S', 'M'] := by decide

/-- C4 (amended): the canary tag written before and after every block is the
4-byte ASCII sequence O, S, R, M — the bytes 79, 83, 82, 77 — in that order. -/
theorem canary_value : CANARY = ['O', 'S', 'R', 'M'] ∧ canaryBytes = [79, 83, 82, 77] := by
  decide

/-- C5: for every layout whose blocks all carry positive power-of-two
alignments and whose cost does not overflow `uint64_t`, `GetSizeOfLayout`
returns the sum over all blocks of `2 * sizeof(CANARY) + byte_size +
entry_align`, and for every base address the end of the last block under the
offset replay — its trailing canary included — is at most `base` plus that
value. -/
theorem size_of_layout_upper_bound (L : Layout)
    (Hpow : ∀ i, i < NUM_BLOCKS → ∃ k, (L i).entry_align = 2 ^ k)
    (Hb : layoutCost L NUM_BLOCKS < W64) :
    GetSizeOfLayout L = layoutCost L NUM_BLOCKS
      ∧ ∀ base, replayAfter L base NUM_BLOCKS ≤ base + GetSizeOfLayout L := by
  have Hpos := pow_align_pos L NUM_BLOCKS Hpow
  have h1 : GetSizeOfLayout L = layoutCost L NUM_BLOCKS := sizeAux_eq_cost L NUM_BLOCKS Hb
  refine ⟨h1, fun base => ?_⟩
  rw [h1]
  exact replayAfter_le_cost L base NUM_BLOCKS Hpos

/-- C5 witness at the constant power-of-two layout `L1` and base 0. -/
theorem size_of_layout_upper_bound_witness :
    GetSizeOfLayout L1 = 1168 ∧ replayAfter L1 0 NUM_BLOCKS ≤ 0 + GetSizeOfLayout L1 :=
  ⟨((size_of_layout_upper_bound L1 (fun i _ => ⟨1, rfl⟩) (by decide)).1).trans (by decide),
   (size_of_layout_upper_bound L1 (fun i _ => ⟨1, rfl⟩) (by decide)).2 0⟩

theorem ptr_eq_spec_all (L : Layout) (base bid : Nat)
    (Hpow : ∀ i, i < NUM_BLOCKS → ∃ k, (L i).entry_align = 2 ^ k)
    (hbid : bid < NUM_BLOCKS)
    (Hb : base + layoutCost L NUM_BLOCKS ≤ W64) :
    GetAlignedBlockPtr L base bid = alignedOffsetSpec L base bid := by
  have hmono := layoutCost_mono L (bid + 1) NUM_BLOCKS (by omega)
  exact GetAlignedBlockPtr_eq_spec L base bid (fun i hi => Hpow i (by omega)) (by omega)

/-- C6: for every layout with power-of-two alignments, every block id and every
base pointer for which the region fits below `2 ^ 64`, the payload offset
computed by `GetAlignedBlockPtr` — with its `(intptr - 1u + align) & -align`
bit trick and wrapping pointer arithmetic — equals the exact offset replay
worded by the spec. -/
theorem aligned_ptr_eq_replay (L : Layout) (base bid : Nat)
    (Hpow : ∀ i, i < NUM_BLOCKS → ∃ k, (L i).entry_align = 2 ^ k)
    (hbid : bid < NUM_BLOCKS)
    (Hb : base + layoutCost L NUM_BLOCKS ≤ W64) :
    GetAlignedBlockPtr L base bid = alignedOffsetSpec L base bid :=
  ptr_eq_spec_all L base bid Hpow hbid Hb

/-- C6 witness at the constant power-of-two layout `L1`, base 0, block 5. -/
theorem aligned_ptr_eq_replay_witness :
    GetAlignedBlockPtr L1 0 5 = alignedOffsetSpec L1 0 5 ∧ GetAlignedBlockPtr L1 0 5 = 74 :=
  ⟨aligned_ptr_eq_replay L1 0 5 (fun i _ => ⟨1, rfl⟩) (by decide) (by decide), by decide⟩

/-- C7: for every layout with power-of-two alignments, every base and every
block `i` (region fitting below `2 ^ 64`): the payload offset of block `i` is
divisible by block `i` alignment, and for `1 ≤ i` it is at least the payload
offset of block `i - 1` plus one canary, plus the byte size of block `i - 1`,
plus one canary. -/
theorem offset_invariants (L : Layout) (base i : Nat)
    (Hpow : ∀ j, j < NUM_BLOCKS → ∃ k, (L j).entry_align = 2 ^ k)
    (hi : i < NUM_BLOCKS)
    (Hb : base + layoutCost L NUM_BLOCKS ≤ W64) :
    (L i).entry_align ∣ GetAlignedBlockPtr L base i
      ∧ (1 ≤ i →
          GetAlignedBlockPtr L base (i - 1) + CANARY_SIZE + (L (i - 1)).byte_size + CANARY_SIZE
            ≤ GetAlignedBlockPtr L base i) := by
  have Hpos := pow_align_pos L NUM_BLOCKS Hpow
  have heq := ptr_eq_spec_all L base i Hpow hi Hb
  constructor
  · rw [heq]
    exact dvd_alignUp _ _
  · intro h1
    have hj : i - 1 < NUM_BLOCKS := by omega
    have heqj := ptr_eq_spec_all L base (i - 1) Hpow hj Hb
    rw [heq, heqj]
    have hstep : replayAfter L base (i - 1 + 1)
        = alignedOffsetSpec L base (i - 1) + (L (i - 1)).byte_size + CANARY_SIZE :=
      replayAfter_succ_eq L base (i - 1)
    have hsucc : i - 1 + 1 = i := by omega
    rw [hsucc] at hstep
    have hle := le_alignedOffsetSpec L base i (Hpos i hi)
    omega

/-- C7 witness at the constant power-of-two layout `L1`, base 0, block 1. -/
theorem offset_invariants_witness :
    (L1 1).entry_align ∣ GetAlignedBlockPtr L1 0 1
      ∧ GetAlignedBlockPtr L1 0 0 + CANARY_SIZE + (L1 0).byte_size + CANARY_SIZE
          ≤ GetAlignedBlockPtr L1 0 1 := by
  have h := offset_invariants L1 0 1 (fun i _ => ⟨1, rfl⟩) (by decide) (by decide)
  exact ⟨h.1, h.2 (by omega)⟩

/-! ## Claim theorems about the publisher protocol -/

/-- C1 (counterexample): with the monitor at the maximal 32-bit timestamp, the
successful publish of `Storage::Run` stores timestamp 0 — the C++ `unsigned`
increment of line 119 wraps — so the new timestamp is neither the pre-publish
timestamp plus one nor larger than the pre-publish timestamp. -/
theorem run_timestamp_wrap_counterexample :
    (Run envWrap).monitor.timestamp = 0
      ∧ envWrap.preMonitor.timestamp = MOD32 - 1
      ∧ (Run envWrap).monitor.timestamp ≠ envWrap.preMonitor.timestamp + 1
      ∧ ¬ envWrap.preMonitor.timestamp < (Run envWrap).monitor.timestamp := by
  decide

/-- C1 (amended): every successful `Storage::Run` with pre-publish monitor
state (r, t) leaves the monitor holding region `REGION_1` if `r` was `REGION_2`
or `REGION_NONE` and `REGION_2` otherwise, and timestamp `(t + 1) mod 2 ^ 32`;
hence the published region differs from `r` whenever `r` was not `REGION_NONE`,
and the timestamp strictly increases whenever `t < 2 ^ 32 - 1`. -/
theorem run_publish_updates_monitor (e : RunEnv) :
    (Run e).monitor.region
        = (if e.preMonitor.region = SharedDataType.REGION_2
              ∨ e.preMonitor.region = SharedDataType.REGION_NONE
           then SharedDataType.REGION_1 else SharedDataType.REGION_2)
      ∧ (Run e).monitor.timestamp = (e.preMonitor.timestamp + 1) % MOD32
      ∧ (e.preMonitor.region ≠ SharedDataType.REGION_NONE →
          (Run e).monitor.region ≠ e.preMonitor.region)
      ∧ (e.preMonitor.timestamp < MOD32 - 1 →
          e.preMonitor.timestamp < (Run e).monitor.timestamp) := by
  obtain ⟨⟨r, ts⟩, nre, mw, tls, iue⟩ := e
  refine ⟨?_, rfl, ?_, ?_⟩
  · cases r <;> rfl
  · intro hne
    cases r <;> simp_all [Run]
  · intro hlt
    replace hlt : ts < MOD32 - 1 := hlt
    have hts : ts + 1 < MOD32 := by
      unfold MOD32 at hlt ⊢
      omega
    show ts < (ts + 1) % MOD32
    rw [Nat.mod_eq_of_lt hts]
    omega

/-- C1 witness: a publish over the live state (REGION_1, 5). -/
theorem run_publish_updates_monitor_witness :
    (Run envPlain).monitor.region = SharedDataType.REGION_2
      ∧ (Run envPlain).monitor.timestamp = 6
      ∧ (Run envPlain).monitor.region ≠ envPlain.preMonitor.region
      ∧ envPlain.preMonitor.timestamp < (Run envPlain).monitor.timestamp := by
  have h := run_publish_updates_monitor envPlain
  exact ⟨by decide, by decide, h.2.2.1 (by decide), h.2.2.2 (by decide)⟩

/-- C9 (counterexample): a timed-out publish over the stuck monitor state
(REGION_1, 5) with `max_wait = 2` completes with the monitor holding
(REGION_2, 6), not (REGION_1, 1): lines 174-176 of storage.cpp store the
`next_region` and `next_timestamp` computed at lines 119-121 from the
pre-timeout state, so the timestamp does not restart at 1. -/
theorem run_timeout_no_restart_counterexample :
    (Run envTimeout).warnedTimeout = true
      ∧ (Run envTimeout).recreatedMonitor = true
      ∧ (Run envTimeout).monitor
          = (⟨SharedDataType.REGION_2, 6⟩ : SharedDataTimestamp)
      ∧ (Run envTimeout).monitor
          ≠ (⟨SharedDataType.REGION_1, 1⟩ : SharedDataTimestamp) := by
  decide

/-- C9 (amended): whenever the monitor mutex cannot be acquired within
`max_wait ≥ 0` seconds, the publisher logs a warning, destroys and re-creates
the monitor, and the publish completes with the monitor holding the next region
and timestamp computed from the pre-timeout state — (REGION_1, 1) only when the
stuck monitor held (REGION_NONE, 0). -/
theorem run_timeout_recovery (e : RunEnv) (hmw : 0 ≤ e.maxWait)
    (hto : e.timedLockSuccess = false) :
    (Run e).warnedTimeout = true
      ∧ (Run e).recreatedMonitor = true
      ∧ (Run e).monitor
          = ⟨(if e.preMonitor.region = SharedDataType.REGION_2
                ∨ e.preMonitor.region = SharedDataType.REGION_NONE
              then SharedDataType.REGION_1 else SharedDataType.REGION_2),
             (e.preMonitor.timestamp + 1) % MOD32⟩ := by
  obtain ⟨⟨r, ts⟩, nre, mw, tls, iue⟩ := e
  subst hto
  have hd : decide (0 ≤ mw) = true := decide_eq_true hmw
  refine ⟨?_, ?_, rfl⟩ <;> simp [Run, hd]

/-- C9 witness: the timed-out publish over the stuck state (REGION_1, 5). -/
theorem run_timeout_recovery_witness :
    (Run envTimeout).warnedTimeout = true
      ∧ (Run envTimeout).recreatedMonitor = true
      ∧ (Run envTimeout).monitor = (⟨SharedDataType.REGION_2, 6⟩ : SharedDataTimestamp) := by
  have h := run_timeout_recovery envTimeout (by decide) rfl
  exact ⟨h.1, h.2.1, h.2.2.trans (by decide)⟩

/-- C10: on the monitor-timeout recovery path `Storage::Run` sets the in-use
region variable to `REGION_NONE` (storage.cpp line 165) before the post-publish
cleanup, so the pre-timeout live region is never opened, never marked for
removal and never waited on; on the non-timeout path with a live, still
existing old region, that region is opened, marked for removal and waited on
(lines 185-200). -/
theorem run_timeout_frame (e : RunEnv) (hmw : 0 ≤ e.maxWait) :
    (e.timedLockSuccess = false →
        (Run e).openedOld = none
          ∧ (Run e).waitedDetach = false
          ∧ e.preMonitor.region ∉ (Run e).removedRegions)
      ∧ (e.timedLockSuccess = true →
          e.preMonitor.region ≠ SharedDataType.REGION_NONE →
          e.inUseRegionExists = true →
          (Run e).openedOld = some e.preMonitor.region
            ∧ e.preMonitor.region ∈ (Run e).removedRegions
            ∧ (Run e).waitedDetach = true) := by
  obtain ⟨⟨r, ts⟩, nre, mw, tls, iue⟩ := e
  constructor
  · intro hto
    subst hto
    simp only [Run, decide_eq_true_eq]
    cases r <;> cases nre <;> simp [hmw]
  · intro hok hne hex
    subst hok
    subst hex
    simp only [Run, decide_eq_true_eq]
    cases r <;> cases nre <;> simp_all

/-- C10 witness: the timed-out publish over (REGION_1, 5) leaves the old region
untouched; the successful bounded-wait publish over the same state opens,
removes and waits on REGION_1. -/
theorem run_timeout_frame_witness :
    ((Run envTimeout).openedOld = none
        ∧ (Run envTimeout).waitedDetach = false
        ∧ envTimeout.preMonitor.region ∉ (Run envTimeout).removedRegions)
      ∧ ((Run envOk).openedOld = some envOk.preMonitor.region
          ∧ envOk.preMonitor.region ∈ (Run envOk).removedRegions
          ∧ (Run envOk).waitedDetach = true) :=
  ⟨(run_timeout_frame envTimeout (by decide)).1 rfl,
   (run_timeout_frame envOk (by decide)).2 rfl (by decide) rfl⟩

/-! ## The sizer: which block a sequence of SetBlock calls leaves where -/

theorem applySets_cons (L : Layout) (p : Nat × Block) (l : List (Nat × Block)) :
    applySets L (p :: l) = applySets (SetBlock L p.1 p.2) l :=
  rfl

theorem applySets_not_mem (l : List (Nat × Block)) (L : Layout) (b : Nat)
    (h : ∀ p ∈ l, p.1 ≠ b) : applySets L l b = L b := by
  induction l generalizing L with
  | nil => rfl
  | cons p t ih =>
    rw [applySets_cons]
    rw [ih _ (fun q hq => h q (List.mem_cons_of_mem _ hq))]
    have hp : p.1 ≠ b := h p (List.mem_cons_self _ _)
    simp [SetBlock, Ne.symm hp]

theorem applySets_eq_of (l : List (Nat × Block)) (b : Nat) (blk : Block)
    (hmem : (b, blk) ∈ l)
    (huniq : ∀ p ∈ l, p.1 = b → p = (b, blk)) :
    ∀ L : Layout, applySets L l b = blk := by
  induction l with
  | nil => cases hmem
  | cons p t ih =>
    intro L
    by_cases hm : (b, blk) ∈ t
    · rw [applySets_cons]
      exact ih hm (fun q hq hqb => huniq q (List.mem_cons_of_mem _ hq) hqb) _
    · have hp : p = (b, blk) := by
        rcases List.mem_cons.mp hmem with h1 | h1
        · exact h1.symm
        · exact absurd h1 hm
      subst hp
      rw [applySets_cons]
      have ht : ∀ q ∈ t, q.1 ≠ b := by
        intro q hq hqb
        exact hm ((huniq q (List.mem_cons_of_mem _ hq) hqb) ▸ hq)
      rw [applySets_not_mem t _ b ht]
      simp [SetBlock]

theorem preHsgrSets_ids (env : TEnv) (c : SizerInputs) :
    ∀ p ∈ preHsgrSets env c, p.1 < 5 ∨ 12 < p.1 := by
  intro p hp
  have h1 : p.1 ∈ (preHsgrSets env c).map Prod.fst := List.mem_map_of_mem _ hp
  have h2 : (preHsgrSets env c).map Prod.fst
      = [29, 0, 41, 42, 38, 39, 15, 37, 16, 1, 2] := rfl
  rw [h2] at h1
  simp only [List.mem_cons, List.not_mem_nil, or_false] at h1
  omega

theorem postHsgrSets_ids (env : TEnv) (c : SizerInputs) :
    ∀ p ∈ postHsgrSets env c, 12 < p.1 := by
  intro p hp
  have h1 : p.1 ∈ (postHsgrSets env c).map Prod.fst := List.mem_map_of_mem _ hp
  have h2 : (postHsgrSets env c).map Prod.fst
      = [17, 18, 31, 28, 43, 44, 13, 14, 19, 20, 21, 22, 23, 24, 25, 26,
         30, 35, 32, 33, 34, 36, 40, 71, 72] := rfl
  rw [h2] at h1
  simp only [List.mem_cons, List.not_mem_nil, or_false] at h1
  omega

theorem partSets_ids (env : TEnv) (c : SizerInputs) :
    ∀ p ∈ partSets env c, 12 < p.1 := by
  intro p hp
  have h1 : p.1 ∈ (partSets env c).map Prod.fst := List.mem_map_of_mem _ hp
  have h2 : (partSets env c).map Prod.fst = [45, 46, 47] := by
    rcases hc : c.partition with _ | q <;> simp only [partSets, hc, List.map_cons, List.map_nil] <;> rfl
  rw [h2] at h1
  simp only [List.mem_cons, List.not_mem_nil, or_false] at h1
  omega

theorem cellsSets_ids (env : TEnv) (c : SizerInputs) :
    ∀ p ∈ cellsSets env c, 12 < p.1 := by
  intro p hp
  have h1 : p.1 ∈ (cellsSets env c).map Prod.fst := List.mem_map_of_mem _ hp
  have h2 : (cellsSets env c).map Prod.fst = [64, 65, 66, 67] := by
    rcases hc : c.cells with _ | q <;> simp only [cellsSets, hc, List.map_cons, List.map_nil] <;> rfl
  rw [h2] at h1
  simp only [List.mem_cons, List.not_mem_nil, or_false] at h1
  omega

theorem cellMetricsSets_ids (env : TEnv) (m : CellMetricsInput) :
    ∀ p ∈ cellMetricsSets env m, 12 < p.1 := by
  intro p hp
  simp only [cellMetricsSets, List.mem_append, List.mem_flatMap, List.mem_range,
    List.mem_range', List.mem_cons, List.not_mem_nil, or_false] at hp
  rcases hp with ⟨i, hi, rfl | rfl⟩ | ⟨i, hi, rfl | rfl⟩ <;>
    simp [MLD_CELL_WEIGHTS_0, MLD_CELL_DURATIONS_0] <;> omega

theorem cellMetricsAbsentSets_ids :
    ∀ p ∈ cellMetricsAbsentSets, 12 < p.1 := by
  intro p hp
  simp only [cellMetricsAbsentSets, List.mem_append, List.mem_map, List.mem_range] at hp
  rcases hp with ⟨i, hi, rfl⟩ | ⟨i, hi, rfl⟩ <;>
    simp [MLD_CELL_WEIGHTS_0, MLD_CELL_DURATIONS_0] <;> omega

theorem mldgrSets_ids (env : TEnv) (c : SizerInputs) :
    ∀ p ∈ mldgrSets env c, 12 < p.1 := by
  intro p hp
  have h1 : p.1 ∈ (mldgrSets env c).map Prod.fst := List.mem_map_of_mem _ hp
  have h2 : (mldgrSets env c).map Prod.fst = [68, 69, 70] := by
    rcases hc : c.mldgr with _ | g <;> simp only [mldgrSets, hc, List.map_cons, List.map_nil] <;> rfl
  rw [h2] at h1
  simp only [List.mem_cons, List.not_mem_nil, or_false] at h1
  omega

theorem cmOf_ids (env : TEnv) (c : SizerInputs) :
    ∀ p ∈ cmOf env c, 12 < p.1 := by
  intro p hp
  rcases hc : c.cellMetrics with _ | m <;> rw [cmOf, hc] at hp
  · exact cellMetricsAbsentSets_ids p hp
  · exact cellMetricsSets_ids env m p hp

theorem chSets_filter_mem (env : TEnv) (h : HsgrInput) (i : Nat) (hi : i < NUM_METRICS) :
    (CH_EDGE_FILTER_0 + i,
      if i < h.numMetrics then make_block 4 4 h.numEdges else make_block 4 4 0)
      ∈ chSets env h := by
  by_cases hlt : i < h.numMetrics
  · rw [if_pos hlt]
    unfold chSets
    apply List.mem_append.mpr
    left
    apply List.mem_append.mpr
    right
    exact List.mem_map_of_mem _ (List.mem_range.mpr hlt)
  · rw [if_neg hlt]
    unfold chSets
    apply List.mem_append.mpr
    right
    have hmem : i ∈ List.range' h.numMetrics (NUM_METRICS - h.numMetrics) := by
      rw [List.mem_range']
      refine ⟨i - h.numMetrics, ?_, ?_⟩
      · unfold NUM_METRICS at hi ⊢
        omega
      · omega
    exact List.mem_map_of_mem _ hmem

theorem chSets_filter_uniq (env : TEnv) (h : HsgrInput) (i : Nat) (hi : i < NUM_METRICS) :
    ∀ p ∈ chSets env h, p.1 = CH_EDGE_FILTER_0 + i →
      p = (CH_EDGE_FILTER_0 + i,
        if i < h.numMetrics then make_block 4 4 h.numEdges else make_block 4 4 0) := by
  intro p hp hpid
  unfold NUM_METRICS at hi
  simp only [chSets, List.mem_append, List.mem_cons, List.mem_map, List.mem_range,
    List.mem_range', List.not_mem_nil, or_false] at hp
  rcases hp with ((rfl | rfl | rfl) | ⟨j, hj, rfl⟩) | ⟨j, ⟨j0, hj0, rfl⟩, rfl⟩
  · have h27 : (27 : Nat) = 5 + i := hpid
    omega
  · have h3 : (3 : Nat) = 5 + i := hpid
    omega
  · have h4 : (4 : Nat) = 5 + i := hpid
    omega
  · have hji : 5 + j = 5 + i := hpid
    have hj2 : j = i := by omega
    subst hj2
    simp [hj]
  · have hji : 5 + (h.numMetrics + 1 * j0) = 5 + i := hpid
    have hgei : ¬ i < h.numMetrics := by omega
    have hj2 : h.numMetrics + 1 * j0 = i := by omega
    rw [hj2, if_neg hgei]

theorem fullSets_filter_value (env : TEnv) (c : SizerInputs) (h : HsgrInput)
    (hh : c.hsgr = some h) (i : Nat) (hi : i < NUM_METRICS) :
    applySets emptyLayout (fullSets env c) (CH_EDGE_FILTER_0 + i)
      = (if i < h.numMetrics then make_block 4 4 h.numEdges else make_block 4 4 0) := by
  have hch : chOf env c = chSets env h := by
    rw [chOf, hh]
  apply applySets_eq_of
  · simp only [fullSets, List.mem_append]
    left
    left
    left
    left
    left
    right
    rw [hch]
    exact chSets_filter_mem env h i hi
  · intro p hp hpid
    have hrange : 5 ≤ p.1 ∧ p.1 ≤ 12 := by
      unfold NUM_METRICS at hi
      have : p.1 = 5 + i := hpid
      omega
    simp only [fullSets, List.mem_append] at hp
    rcases hp with ((((((hp | hp) | hp) | hp) | hp) | hp) | hp)
    · rcases preHsgrSets_ids env c p hp with h1 | h1 <;> omega
    · rw [hch] at hp
      exact chSets_filter_uniq env h i hi p hp hpid
    · have := postHsgrSets_ids env c p hp
      omega
    · have := partSets_ids env c p hp
      omega
    · have := cellsSets_ids env c p hp
      omega
    · have := cmOf_ids env c p hp
      omega
    · have := mldgrSets_ids env c p hp
      omega

theorem populateLayout_of_bad (env : TEnv) (c : SizerInputs)
    (hcond : (∃ h, c.hsgr = some h ∧ NUM_METRICS < h.numMetrics)
      ∨ (∃ m, c.cellMetrics = some m ∧ NUM_METRICS < m.numMetric)) :
    populateLayout env c = Except.error SizerError.tooManyMetrics := by
  rcases hcond with ⟨h, hh, hlt⟩ | ⟨m, hm, hlt⟩
  · unfold populateLayout
    rw [hh]
    simp [hlt, Bind.bind, Except.bind]
  · rcases hh : c.hsgr with _ | h
    · unfold populateLayout
      rw [hh, hm]
      simp [hlt, Bind.bind, Except.bind]
    · by_cases hlt2 : NUM_METRICS < h.numMetrics
      · unfold populateLayout
        rw [hh]
        simp [hlt2, Bind.bind, Except.bind]
      · unfold populateLayout
        rw [hh, hm]
        simp [hlt, hlt2, Bind.bind, Except.bind]

theorem populateLayout_of_good (env : TEnv) (c : SizerInputs)
    (h1 : ∀ h, c.hsgr = some h → h.numMetrics ≤ NUM_METRICS)
    (h2 : ∀ m, c.cellMetrics = some m → m.numMetric ≤ NUM_METRICS) :
    populateLayout env c = Except.ok (applySets emptyLayout (fullSets env c)) := by
  rcases hh : c.hsgr with _ | h <;> rcases hm : c.cellMetrics with _ | m
  · have hch : chOf env c = chAbsentSets env := by rw [chOf, hh]
    have hcm : cmOf env c = cellMetricsAbsentSets := by rw [cmOf, hm]
    unfold populateLayout
    rw [hh, hm]
    simp [Bind.bind, Except.bind, fullSets, hch, hcm]
  · have hch : chOf env c = chAbsentSets env := by rw [chOf, hh]
    have hcm : cmOf env c = cellMetricsSets env m := by rw [cmOf, hm]
    have hn : ¬ NUM_METRICS < m.numMetric := Nat.not_lt.mpr (h2 m hm)
    unfold populateLayout
    rw [hh, hm]
    simp [Bind.bind, Except.bind, fullSets, hch, hcm, hn]
  · have hch : chOf env c = chSets env h := by rw [chOf, hh]
    have hcm : cmOf env c = cellMetricsAbsentSets := by rw [cmOf, hm]
    have hn : ¬ NUM_METRICS < h.numMetrics := Nat.not_lt.mpr (h1 h hh)
    unfold populateLayout
    rw [hh, hm]
    simp [Bind.bind, Except.bind, fullSets, hch, hcm, hn]
  · have hch : chOf env c = chSets env h := by rw [chOf, hh]
    have hcm : cmOf env c = cellMetricsSets env m := by rw [cmOf, hm]
    have hn : ¬ NUM_METRICS < h.numMetrics := Nat.not_lt.mpr (h1 h hh)
    have hn2 : ¬ NUM_METRICS < m.numMetric := Nat.not_lt.mpr (h2 m hm)
    unfold populateLayout
    rw [hh, hm]
    simp [Bind.bind, Except.bind, fullSets, hch, hcm, hn, hn2]

/-- C8: for every input set, the sizer fails with the too-many-metrics
exception exactly when the `.osrm.hsgr` file or the `.osrm.cell_metrics` file
declares more than `NUM_METRICS = 8` metrics — a count of exactly 8 is
accepted — and on success with `.osrm.hsgr` present the first `num_metrics` CH
edge-filter blocks hold `num_edges` entries each while the remaining filter
blocks up to 8 hold zero entries. -/
theorem sizer_metrics_rule (env : TEnv) (c : SizerInputs) :
    (populateLayout env c = Except.error SizerError.tooManyMetrics ↔
        (∃ h, c.hsgr = some h ∧ NUM_METRICS < h.numMetrics)
          ∨ (∃ m, c.cellMetrics = some m ∧ NUM_METRICS < m.numMetric))
      ∧ (∀ h L, c.hsgr = some h → populateLayout env c = Except.ok L →
          (∀ i, i < h.numMetrics → (L (CH_EDGE_FILTER_0 + i)).num_entries = h.numEdges)
            ∧ (∀ i, h.numMetrics ≤ i → i < NUM_METRICS →
                (L (CH_EDGE_FILTER_0 + i)).num_entries = 0)) := by
  constructor
  · constructor
    · intro herr
      by_contra hcon
      push_neg at hcon
      obtain ⟨hc1, hc2⟩ := hcon
      have hg := populateLayout_of_good env c
        (fun h hh => hc1 h hh)
        (fun m hm => hc2 m hm)
      rw [hg] at herr
      exact absurd herr (by simp)
    · exact populateLayout_of_bad env c
  · intro h L hh hok
    have hb1 : h.numMetrics ≤ NUM_METRICS := by
      by_contra hcon
      have hbad := populateLayout_of_bad env c (Or.inl ⟨h, hh, by omega⟩)
      rw [hbad] at hok
      exact absurd hok (by simp)
    have hb2 : ∀ m, c.cellMetrics = some m → m.numMetric ≤ NUM_METRICS := by
      intro m hm
      by_contra hcon
      have hbad := populateLayout_of_bad env c (Or.inr ⟨m, hm, by omega⟩)
      rw [hbad] at hok
      exact absurd hok (by simp)
    have hg := populateLayout_of_good env c
      (fun h' hh' => by
        rw [hh] at hh'
        cases hh'
        exact hb1)
      hb2
    rw [hg] at hok
    have hL : L = applySets emptyLayout (fullSets env c) := by
      have := Except.ok.inj hok
      exact this.symm
    subst hL
    constructor
    · intro i hilt
      have hlt8 : i < NUM_METRICS := by
        unfold NUM_METRICS
        unfold NUM_METRICS at hb1
        omega
      rw [fullSets_filter_value env c h hh i hlt8, if_pos hilt]
      rfl
    · intro i hge hilt
      rw [fullSets_filter_value env c h hh i hilt, if_neg (by omega)]
      rfl

/-- C8 witness: the nine-metric CH file is rejected; with the eight-metric CH
file the sizer succeeds and sizes filters 2 and 7 from `num_edges = 3`. -/
theorem sizer_metrics_rule_witness :
    populateLayout trivEnv cfgTooMany = Except.error SizerError.tooManyMetrics
      ∧ (L8 (CH_EDGE_FILTER_0 + 2)).num_entries = 3
      ∧ (L8 (CH_EDGE_FILTER_0 + 7)).num_entries = 3 := by
  have h1 := (sizer_metrics_rule trivEnv cfgTooMany).1.mpr
    (Or.inl ⟨hsgr9, rfl, by decide⟩)
  have h2 := (sizer_metrics_rule trivEnv cfg8).2 hsgr8 L8 rfl (by rfl)
  exact ⟨h1, h2.1 2 (by decide), h2.1 7 (by decide)⟩

/-! ## The populate pass: byte-write semantics -/

theorem writeBytes_out (m : Mem) (a : Nat) (bs : List Nat) (x : Nat)
    (h : x < a ∨ a + bs.length ≤ x) : writeBytes m a bs x = m x := by
  induction bs generalizing m a with
  | nil => rfl
  | cons v vs ih =>
    show writeBytes (fun y => if y = a then v else m y) (a + 1) vs x = m x
    rw [ih _ (a + 1) (by simp only [List.length_cons] at h; omega)]
    show (if x = a then v else m x) = m x
    rw [if_neg (by simp only [List.length_cons] at h; omega)]

theorem writeBytes_in (m : Mem) (a : Nat) (bs : List Nat) (x : Nat)
    (h1 : a ≤ x) (h2 : x < a + bs.length) :
    writeBytes m a bs x = bs.getD (x - a) 0 := by
  induction bs generalizing m a with
  | nil => simp only [List.length_nil] at h2; omega
  | cons v vs ih =>
    show writeBytes (fun y => if y = a then v else m y) (a + 1) vs x = _
    by_cases hx : x = a
    · subst hx
      rw [writeBytes_out _ _ _ _ (Or.inl (by omega))]
      simp
    · rw [ih _ (a + 1) (by omega) (by simp only [List.length_cons] at h2; omega)]
      have hsub : x - a = (x - (a + 1)) + 1 := by omega
      rw [hsub]
      simp

theorem exec_cons (m : Mem) (w : Op) (t : List Op) :
    exec m (w :: t) = exec (writeBytes m w.1 w.2) t := rfl

theorem exec_out (t : List Op) (m : Mem) (x : Nat)
    (h : ∀ w ∈ t, x < w.1 ∨ w.1 + w.2.length ≤ x) : exec m t x = m x := by
  induction t generalizing m with
  | nil => rfl
  | cons w ws ih =>
    rw [exec_cons, ih _ (fun q hq => h q (List.mem_cons_of_mem _ hq))]
    exact writeBytes_out m w.1 w.2 x (h w (List.mem_cons_self _ _))

theorem exec_fixed (t : List Op) (x c : Nat)
    (hcov : ∃ w ∈ t, w.1 ≤ x ∧ x < w.1 + w.2.length)
    (hval : ∀ w ∈ t, w.1 ≤ x → x < w.1 + w.2.length → w.2.getD (x - w.1) 0 = c) :
    ∀ m : Mem, exec m t x = c := by
  induction t with
  | nil =>
    obtain ⟨w, hw, _⟩ := hcov
    cases hw
  | cons w ws ih =>
    intro m
    by_cases hc : ∃ q ∈ ws, q.1 ≤ x ∧ x < q.1 + q.2.length
    · rw [exec_cons]
      exact ih hc (fun q hq => hval q (List.mem_cons_of_mem _ hq)) _
    · push_neg at hc
      have hw : w.1 ≤ x ∧ x < w.1 + w.2.length := by
        obtain ⟨q, hq, hqc⟩ := hcov
        rcases List.mem_cons.mp hq with rfl | hq2
        · exact hqc
        · obtain ⟨hq1, hq2c⟩ := hqc
          have h3 := hc q hq2 hq1
          omega
      have hout : ∀ q ∈ ws, x < q.1 ∨ q.1 + q.2.length ≤ x := by
        intro q hq
        rcases Nat.lt_or_ge x q.1 with hlt | hge
        · exact Or.inl hlt
        · exact Or.inr (hc q hq hge)
      rw [exec_cons, exec_out ws _ x hout]
      rw [writeBytes_in m w.1 w.2 x hw.1 hw.2]
      exact hval w (List.mem_cons_self _ _) hw.1 hw.2

theorem populateData_ok_trace (L : Layout) (base : Nat) (inp : PopInputs) (t : List Op)
    (hok : populateData L base inp = Except.ok t) : t = populateTrace L base inp := by
  unfold populateData at hok
  split_ifs at hok
  exact (Except.ok.inj hok).symm

/-- C2: for every input set, the populate pass fails with a checksum-mismatch
error exactly when the turns connectivity checksum from `.osrm.edges` differs
from the connectivity checksum of `.osrm.hsgr` when that file exists, or from
the connectivity checksum of `.osrm.mldgr` when that file exists; when neither
optional graph file exists the pass succeeds without any checksum comparison. -/
theorem populate_checksum_rule (L : Layout) (base : Nat) (inp : PopInputs) :
    ((∃ e, populateData L base inp = Except.error e) ↔
        (inp.hsgrExists = true ∧ inp.turnsChecksum ≠ inp.hsgrChecksum)
          ∨ (inp.mldgrExists = true ∧ inp.turnsChecksum ≠ inp.mldgrChecksum))
      ∧ (inp.hsgrExists = false → inp.mldgrExists = false →
          populateData L base inp = Except.ok (populateTrace L base inp)) := by
  refine ⟨⟨?_, ?_⟩, ?_⟩
  · intro he
    obtain ⟨e, he⟩ := he
    unfold populateData at he
    by_cases h1 : inp.hsgrExists = true ∧ inp.turnsChecksum ≠ inp.hsgrChecksum
    · exact Or.inl h1
    · rw [if_neg h1] at he
      by_cases h2 : inp.mldgrExists = true ∧ inp.turnsChecksum ≠ inp.mldgrChecksum
      · exact Or.inr h2
      · rw [if_neg h2] at he
        exact absurd he (by simp)
  · intro hc
    unfold populateData
    by_cases h1 : inp.hsgrExists = true ∧ inp.turnsChecksum ≠ inp.hsgrChecksum
    · rw [if_pos h1]
      exact ⟨_, rfl⟩
    · rw [if_neg h1]
      rcases hc with hc | hc
      · exact absurd hc h1
      · rw [if_pos hc]
        exact ⟨_, rfl⟩
  · intro hh hm
    unfold populateData
    rw [if_neg (by simp [hh]), if_neg (by simp [hm])]

/-- C2 witness: a CH checksum mismatch is fatal; with both optional graph files
absent the pass succeeds. -/
theorem populate_checksum_rule_witness :
    (populateData L1 0 inpMismatch).isOk = false
      ∧ populateData L1 0 inp0 = Except.ok (populateTrace L1 0 inp0) := by
  have h1 := (populate_checksum_rule L1 0 inpMismatch).1.mpr (Or.inl ⟨rfl, by decide⟩)
  obtain ⟨e, he⟩ := h1
  refine ⟨?_, (populate_checksum_rule L1 0 inp0).2 rfl rfl⟩
  rw [he]
  rfl

theorem stampedBlocks_lt (inp : PopInputs) (b : Nat) (hb : b ∈ stampedBlocks inp) :
    b < NUM_BLOCKS := by
  simp only [stampedBlocks, List.mem_append] at hb
  rcases hb with ((((((hb | hb) | hb) | hb) | hb) | hb) | hb)
  · exact (by decide : ∀ x ∈ mandatoryIds, x < NUM_BLOCKS) b hb
  · by_cases hx : inp.hsgrExists = true
    · rw [if_pos hx] at hb
      exact (by decide : ∀ x ∈ [CH_GRAPH_NODE_LIST, CH_GRAPH_EDGE_LIST, HSGR_CHECKSUM]
          ++ (List.range NUM_METRICS).map (fun i => CH_EDGE_FILTER_0 + i),
        x < NUM_BLOCKS) b hb
    · rw [if_neg hx] at hb
      exact (by decide : ∀ x ∈ [HSGR_CHECKSUM, CH_GRAPH_NODE_LIST, CH_GRAPH_EDGE_LIST],
        x < NUM_BLOCKS) b hb
  · by_cases hx : inp.partitionExists = true
    · rw [if_pos hx] at hb
      exact (by decide : ∀ x ∈ [MLD_LEVEL_DATA, MLD_PARTITION, MLD_CELL_TO_CHILDREN],
        x < NUM_BLOCKS) b hb
    · rw [if_neg hx] at hb
      cases hb
  · by_cases hx : inp.cellsExists = true
    · rw [if_pos hx] at hb
      exact (by decide : ∀ x ∈ [MLD_CELL_SOURCE_BOUNDARY, MLD_CELL_DESTINATION_BOUNDARY,
          MLD_CELLS, MLD_CELL_LEVEL_OFFSETS], x < NUM_BLOCKS) b hb
    · rw [if_neg hx] at hb
      cases hb
  · by_cases hx : inp.cellMetricsExists = true
    · rw [if_pos hx] at hb
      exact (by decide : ∀ x ∈ (List.range NUM_METRICS).flatMap
          (fun i => [MLD_CELL_WEIGHTS_0 + i, MLD_CELL_DURATIONS_0 + i]),
        x < NUM_BLOCKS) b hb
    · rw [if_neg hx] at hb
      cases hb
  · by_cases hx : inp.mldgrExists = true
    · rw [if_pos hx] at hb
      exact (by decide : ∀ x ∈ [MLD_GRAPH_NODE_LIST, MLD_GRAPH_EDGE_LIST,
          MLD_GRAPH_NODE_TO_OFFSET], x < NUM_BLOCKS) b hb
    · rw [if_neg hx] at hb
      cases hb
  · exact (by decide : ∀ x ∈ [MANEUVER_OVERRIDES, MANEUVER_OVERRIDE_NODE_SEQUENCES],
      x < NUM_BLOCKS) b hb

theorem blockOps_bounds (L : Layout) (base : Nat) (inp : PopInputs) (b : Nat)
    (Hdata : ∀ i, (inp.data i).length ≤ (L i).byte_size) :
    ∀ w ∈ blockOps L base inp b,
      w = (GetAlignedBlockPtr L base b - CANARY_SIZE, canaryBytes)
        ∨ w = (GetAlignedBlockPtr L base b + (L b).byte_size, canaryBytes)
        ∨ (w.1 = GetAlignedBlockPtr L base b ∧ w.2.length ≤ (L b).byte_size) := by
  intro w hw
  simp only [blockOps, List.mem_append] at hw
  rcases hw with hw | hw
  · simp only [stampOps, List.mem_cons, List.not_mem_nil, or_false] at hw
    rcases hw with rfl | rfl
    · exact Or.inl rfl
    · exact Or.inr (Or.inl rfl)
  · unfold blockPayloadOps at hw
    split_ifs at hw
    · simp only [List.mem_cons, List.not_mem_nil, or_false] at hw
      rcases hw with rfl | rfl
      · exact Or.inr (Or.inr ⟨rfl, by simp⟩)
      · exact Or.inr (Or.inr ⟨rfl, Hdata b⟩)
    · cases hw
    · simp only [List.mem_cons, List.not_mem_nil, or_false] at hw
      subst hw
      exact Or.inr (Or.inr ⟨rfl, Hdata b⟩)

theorem spec_off_ge (L : Layout) (base b : Nat)
    (Hpos : ∀ i, i < b → 0 < (L i).entry_align)
    (hposb : 0 < (L b).entry_align) :
    base + CANARY_SIZE ≤ alignedOffsetSpec L base b := by
  have h1 := base_le_replayAfter L base b Hpos
  have h2 := le_alignedOffsetSpec L base b hposb
  omega

theorem spec_gap (L : Layout) (base b b2 : Nat) (hbb : b < b2)
    (Hpos : ∀ i, i < b2 → 0 < (L i).entry_align)
    (hposb : 0 < (L b2).entry_align) :
    alignedOffsetSpec L base b + (L b).byte_size + 2 * CANARY_SIZE
      ≤ alignedOffsetSpec L base b2 := by
  have h1 := le_alignedOffsetSpec L base b2 hposb
  have h2 := replayAfter_mono L base (b + 1) b2 (by omega) Hpos
  have h3 := replayAfter_succ_eq L base b
  omega

theorem ops_disjoint (L : Layout) (base : Nat) (inp : PopInputs) (b b2 : Nat)
    (Hpow : ∀ i, i < NUM_BLOCKS → ∃ k, (L i).entry_align = 2 ^ k)
    (Hb : base + layoutCost L NUM_BLOCKS ≤ W64)
    (Hdata : ∀ i, (inp.data i).length ≤ (L i).byte_size)
    (hblt : b < NUM_BLOCKS) (hb2lt : b2 < NUM_BLOCKS) (hne : b2 ≠ b)
    (w : Op) (hw : w ∈ blockOps L base inp b2) (x : Nat)
    (hx1 : GetAlignedBlockPtr L base b - CANARY_SIZE ≤ x)
    (hx2 : x < GetAlignedBlockPtr L base b + (L b).byte_size + CANARY_SIZE) :
    x < w.1 ∨ w.1 + w.2.length ≤ x := by
  have Hpos := pow_align_pos L NUM_BLOCKS Hpow
  have hPb := ptr_eq_spec_all L base b Hpow hblt Hb
  have hPb2 := ptr_eq_spec_all L base b2 Hpow hb2lt Hb
  have hOb := spec_off_ge L base b (fun i hi => Hpos i (by omega)) (Hpos b hblt)
  have hOb2 := spec_off_ge L base b2 (fun i hi => Hpos i (by omega)) (Hpos b2 hb2lt)
  have hclen : canaryBytes.length = 4 := rfl
  have hCS : CANARY_SIZE = 4 := rfl
  have hgap : (b < b2 ∧ alignedOffsetSpec L base b + (L b).byte_size + 2 * CANARY_SIZE
        ≤ alignedOffsetSpec L base b2)
      ∨ (b2 < b ∧ alignedOffsetSpec L base b2 + (L b2).byte_size + 2 * CANARY_SIZE
        ≤ alignedOffsetSpec L base b) := by
    rcases Nat.lt_or_ge b b2 with hlt | hge
    · exact Or.inl ⟨hlt,
        spec_gap L base b b2 hlt (fun i hi => Hpos i (by omega)) (Hpos b2 hb2lt)⟩
    · have hlt2 : b2 < b := by omega
      exact Or.inr ⟨hlt2,
        spec_gap L base b2 b hlt2 (fun i hi => Hpos i (by omega)) (Hpos b hblt)⟩
  rcases blockOps_bounds L base inp b2 Hdata w hw with rfl | rfl | ⟨hwa, hwlen⟩
  · dsimp only
    rw [hclen]
    rcases hgap with ⟨hlt, hg⟩ | ⟨hlt, hg⟩ <;> omega
  · dsimp only
    rw [hclen]
    rcases hgap with ⟨hlt, hg⟩ | ⟨hlt, hg⟩ <;> omega
  · rcases hgap with ⟨hlt, hg⟩ | ⟨hlt, hg⟩ <;> omega

/-- C3 (amended): after a successful populate pass over a layout with
power-of-two alignments (region fitting below `2 ^ 64`, payloads within their
block sizes), both the start canary — the 4 bytes immediately before the
payload — and the end canary — the 4 bytes immediately after `byte_size`
payload bytes — equal the canary tag, for every block the pass stamps: every
block except the eight CH edge-filter blocks when `.osrm.hsgr` is absent and
the blocks of an absent `.osrm.partition`, `.osrm.cells`, `.osrm.cell_metrics`
or `.osrm.mldgr` file. -/
theorem populate_canaries_stamped (L : Layout) (base : Nat) (inp : PopInputs)
    (t : List Op) (b j : Nat)
    (Hpow : ∀ i, i < NUM_BLOCKS → ∃ k, (L i).entry_align = 2 ^ k)
    (Hb : base + layoutCost L NUM_BLOCKS ≤ W64)
    (Hdata : ∀ i, (inp.data i).length ≤ (L i).byte_size)
    (hok : populateData L base inp = Except.ok t)
    (hb : b ∈ stampedBlocks inp) (hj : j < CANARY_SIZE) :
    exec zeroMem t (GetAlignedBlockPtr L base b - CANARY_SIZE + j)
        = canaryBytes.getD j 0
      ∧ exec zeroMem t (GetAlignedBlockPtr L base b + (L b).byte_size + j)
          = canaryBytes.getD j 0 := by
  have Hpos := pow_align_pos L NUM_BLOCKS Hpow
  have hblt := stampedBlocks_lt inp b hb
  have hPb := ptr_eq_spec_all L base b Hpow hblt Hb
  have hOb := spec_off_ge L base b (fun i hi => Hpos i (by omega)) (Hpos b hblt)
  have hclen : canaryBytes.length = 4 := rfl
  have hCS : CANARY_SIZE = 4 := rfl
  have hPge : 4 ≤ GetAlignedBlockPtr L base b := by omega
  have htr := populateData_ok_trace L base inp t hok
  subst htr
  constructor
  · refine exec_fixed _ _ _ ?_ ?_ zeroMem
    · refine ⟨(GetAlignedBlockPtr L base b - CANARY_SIZE, canaryBytes), ?_, ?_, ?_⟩
      · unfold populateTrace
        exact List.mem_flatMap.mpr
          ⟨b, hb, List.mem_append_left _ (List.mem_cons_self _ _)⟩
      · dsimp only
        omega
      · dsimp only
        rw [hclen]
        omega
    · intro w hw hw1 hw2
      obtain ⟨b2, hb2mem, hwops⟩ := List.mem_flatMap.mp hw
      have hb2lt := stampedBlocks_lt inp b2 hb2mem
      by_cases hbe : b2 = b
      · subst hbe
        rcases blockOps_bounds L base inp b2 Hdata w hwops with rfl | rfl | ⟨hwa, hwlen⟩
        · dsimp only
          have harg : GetAlignedBlockPtr L base b2 - CANARY_SIZE + j
              - (GetAlignedBlockPtr L base b2 - CANARY_SIZE) = j := by omega
          rw [harg]
        · exfalso
          dsimp only at hw1 hw2
          omega
        · exfalso
          rw [hwa] at hw1
          omega
      · have haway := ops_disjoint L base inp b b2 Hpow Hb Hdata hblt hb2lt hbe w hwops
          (GetAlignedBlockPtr L base b - CANARY_SIZE + j) (by omega) (by omega)
        exfalso
        rcases haway with haway | haway <;> omega
  · refine exec_fixed _ _ _ ?_ ?_ zeroMem
    · refine ⟨(GetAlignedBlockPtr L base b + (L b).byte_size, canaryBytes), ?_, ?_, ?_⟩
      · unfold populateTrace
        exact List.mem_flatMap.mpr
          ⟨b, hb, List.mem_append_left _ (List.mem_cons_of_mem _ (List.mem_cons_self _ _))⟩
      · dsimp only
        omega
      · dsimp only
        rw [hclen]
        omega
    · intro w hw hw1 hw2
      obtain ⟨b2, hb2mem, hwops⟩ := List.mem_flatMap.mp hw
      have hb2lt := stampedBlocks_lt inp b2 hb2mem
      by_cases hbe : b2 = b
      · subst hbe
        rcases blockOps_bounds L base inp b2 Hdata w hwops with rfl | rfl | ⟨hwa, hwlen⟩
        · exfalso
          dsimp only at hw1 hw2
          rw [hclen] at hw2
          omega
        · dsimp only
          have harg : GetAlignedBlockPtr L base b2 + (L b2).byte_size + j
              - (GetAlignedBlockPtr L base b2 + (L b2).byte_size) = j := by omega
          rw [harg]
        · exfalso
          rw [hwa] at hw1 hw2
          omega
      · have haway := ops_disjoint L base inp b b2 Hpow Hb Hdata hblt hb2lt hbe w hwops
          (GetAlignedBlockPtr L base b + (L b).byte_size + j) (by omega) (by omega)
        exfalso
        rcases haway with haway | haway <;> omega

/-- C3 (counterexample): over the layout the sizer builds from the minimal
input set — every optional file absent — the successful populate pass leaves
the start canary of `CH_EDGE_FILTER_0` unstamped: the byte immediately before
that block's payload (`cexByte`, read at `cexAddr`) is still 0, not the first
canary byte 79, because the `.osrm.hsgr`-absent branch of `Storage::PopulateData`
(storage.cpp lines 972-979) stamps only the checksum, node and edge blocks. -/
theorem populate_canary_counterexample :
    cexByte = some 0 ∧ canaryBytes.getD 0 0 = 79 ∧ (0 : Nat) ≠ 79 :=
  ⟨by decide, by decide, by decide⟩

/-- C3 witness: over the constant power-of-two layout `L1`, the populate pass
for the minimal inputs stamps both canaries of block 0. -/
theorem populate_canaries_stamped_witness :
    exec zeroMem (populateTrace L1 0 inp0) (GetAlignedBlockPtr L1 0 0 - CANARY_SIZE + 0)
        = canaryBytes.getD 0 0
      ∧ exec zeroMem (populateTrace L1 0 inp0)
          (GetAlignedBlockPtr L1 0 0 + (L1 0).byte_size + 0)
          = canaryBytes.getD 0 0 :=
  populate_canaries_stamped L1 0 inp0 (populateTrace L1 0 inp0) 0 0
    (fun _ _ => ⟨1, rfl⟩) (by decide) (fun _ => Nat.zero_le _) rfl
    (by decide) (by decide)

end OSRM
